import Mathlib

/-!
Verification of the local persistence and database-merge subsystem of the
aoi_data_manager repository (src/aoi_data_manager/schema.py, db_models.py,
sql_operations.py), as a shallow embedding in Lean 4.

Modelling conventions:
* Python strings are String, Python int is Int.
* The float coordinate fields x and y are only ever stored and read back
  verbatim by this subsystem (no arithmetic is performed on them anywhere in
  the persistence layer), so they are modelled by an Int carrier; every
  statement below is insensitive to the choice of carrier type.
* A pydantic pre-validation dictionary is modelled as a structure of
  Option fields: none models an absent key, some v a present value.
  Python truthiness of a string value (the test in the model validator,
  namely: not values.get(k)) is falsy exactly on an absent key or the
  empty string.
* A database table is a list of rows; the declared primary key (the id
  column, primary_key=True in db_models.py) makes the id values of a
  reachable table pairwise distinct, which appears below as Nodup
  hypotheses on the id columns.
* A mutating operation of SqlOperations runs inside one transaction per
  call (Session ... commit, with rollback and re-raise on failure), so an
  operation that raises is modelled as returning the error together with
  the unchanged store, and a successful one as returning the new store.
* datetime.now() is modelled by an explicit ambient clock parameter now.
-/

namespace AoiDataManager

/-! ### Decimal representation helpers

These characterize the strings produced by Nat.repr and by toString on Int,
which is the Lean counterpart of the Python f-string interpolation of an int
used in DefectInfo.generate_id_and_datetime.  They are used to prove that the
hash namespace string determines each component of the (lot_number,
current_board_index, defect_number) triple. -/

/-- Structural list of decimal digit characters of a natural number,
most significant first; proved below to agree with Nat.repr. -/
def natChars (n : Nat) : List Char :=
  if n < 10 then [Nat.digitChar n]
  else natChars (n / 10) ++ [Nat.digitChar (n % 10)]
  termination_by n
  decreasing_by exact Nat.div_lt_self (by omega) (by omega)

/-- Numeric value of a decimal digit character. -/
def chVal (c : Char) : Nat := c.toNat - 48

/-- Value of a list of decimal digit characters, most significant first. -/
def ofDigitChars (l : List Char) : Nat :=
  l.foldl (fun a c => 10 * a + chVal c) 0

/-! ### Identity generation (schema.py, DefectInfo.generate_id_and_datetime) -/

/-- Modelled from the spec: uuid5(NAMESPACE_DNS, s) of the Python standard
library (not part of this repository).  Section 4.1 of the spec requires a
pure, deterministic, stable namespace-based hash of the namespace string, and
sections 4.1 and 8 require that distinct namespace strings give distinct
identities; it is therefore modelled as an injective deterministic string
encoding. -/
def uuid5_dns (s : String) : String := "uuid5-dns-" ++ s

/-- Python truthiness test (not values.get(k)) for an optional string value:
true exactly on an absent key or an empty string. -/
def pyFalsy : Option String → Bool
  | none => true
  | some s => s == ""

/-- Pre-validation keyword values for constructing a schema.py DefectInfo.
An Option field with value none models an absent dictionary key. -/
structure DefectValues where
  id : Option String := none
  line_name : Option String := none
  model_code : Option String := none
  lot_number : Option String := none
  current_board_index : Option Int := none
  defect_number : Option Int := none
  serial : Option String := none
  reference : Option String := none
  defect_name : Option String := none
  x : Option Int := none
  y : Option Int := none
  aoi_user : Option String := none
  insert_datetime : Option String := none
  model_label : Option String := none
  board_label : Option String := none
  board_number_label : Option String := none
  image_url : Option String := none
  kintone_record_id : Option String := none
deriving DecidableEq

/-- Schema-level defect record (schema.py class DefectInfo), after
validation: one field per declared pydantic field. -/
structure DefectInfo where
  id : String
  line_name : String
  model_code : String
  lot_number : String
  current_board_index : Int
  defect_number : Int
  serial : String
  reference : String
  defect_name : String
  x : Int
  y : Int
  aoi_user : String
  insert_datetime : String
  model_label : String
  board_label : String
  board_number_label : String
  image_url : Option String
  kintone_record_id : String
deriving DecidableEq

/-- Namespace string built by the model validator, the f-string
interpolation of lot_number, current_board_index and defect_number joined
by underscores (schema.py line 82). -/
def defectNamespace (lot : String) (idx : Int) (dn : Int) : String :=
  lot ++ "_" ++ toString idx ++ "_" ++ toString dn

/-- Model validator of schema.py DefectInfo (generate_id_and_datetime):
when the id value is absent or empty, it is generated as
uuid5(NAMESPACE_DNS, lot_number + underscore + current_board_index +
underscore + defect_number), the missing components defaulting to the empty
string and 0; when the insert_datetime value is absent or empty, it is set
to the current time. -/
def generate_id_and_datetime (now : String) (values : DefectValues) : DefectValues :=
  let values1 :=
    if pyFalsy values.id then
      { values with
        id := some (uuid5_dns (defectNamespace (values.lot_number.getD "")
          (values.current_board_index.getD 0) (values.defect_number.getD 0))) }
    else values
  if pyFalsy values1.insert_datetime then
    { values1 with insert_datetime := some now }
  else values1

/-- Builds the validated DefectInfo from the (post-validator) values,
applying the declared pydantic field defaults to absent keys. -/
def DefectInfo.ofValues (v : DefectValues) : DefectInfo where
  id := v.id.getD ""
  line_name := v.line_name.getD ""
  model_code := v.model_code.getD ""
  lot_number := v.lot_number.getD ""
  current_board_index := v.current_board_index.getD 0
  defect_number := v.defect_number.getD 0
  serial := v.serial.getD ""
  reference := v.reference.getD ""
  defect_name := v.defect_name.getD ""
  x := v.x.getD 0
  y := v.y.getD 0
  aoi_user := v.aoi_user.getD ""
  insert_datetime := v.insert_datetime.getD ""
  model_label := v.model_label.getD ""
  board_label := v.board_label.getD ""
  board_number_label := v.board_number_label.getD ""
  image_url := v.image_url
  kintone_record_id := v.kintone_record_id.getD ""

/-- Construction of a schema.py DefectInfo: the pre-validator
generate_id_and_datetime runs on the keyword values, then the fields are
populated with their declared defaults for absent keys. -/
def DefectInfo.construct (now : String) (v : DefectValues) : DefectInfo :=
  DefectInfo.ofValues (generate_id_and_datetime now v)

/-- Pre-validation keyword values for constructing a schema.py RepairdInfo. -/
structure RepairdValues where
  id : Option String := none
  is_repaird : Option Bool := none
  parts_type : Option String := none
  insert_datetime : Option String := none
  kintone_record_id : Option String := none
deriving DecidableEq

/-- Schema-level repair record (schema.py class RepairdInfo). -/
structure RepairdInfo where
  id : String
  is_repaird : Bool
  parts_type : String
  insert_datetime : String
  kintone_record_id : String
deriving DecidableEq

/-- Model validator of schema.py RepairdInfo (generate_datetime): only an
absent or empty insert_datetime is replaced by the current time; the id is
never generated for repair records. -/
def generate_datetime (now : String) (values : RepairdValues) : RepairdValues :=
  if pyFalsy values.insert_datetime then
    { values with insert_datetime := some now }
  else values

/-- Builds the validated RepairdInfo from the (post-validator) values. -/
def RepairdInfo.ofValues (v : RepairdValues) : RepairdInfo where
  id := v.id.getD ""
  is_repaird := v.is_repaird.getD false
  parts_type := v.parts_type.getD ""
  insert_datetime := v.insert_datetime.getD ""
  kintone_record_id := v.kintone_record_id.getD ""

/-- Construction of a schema.py RepairdInfo. -/
def RepairdInfo.construct (now : String) (v : RepairdValues) : RepairdInfo :=
  RepairdInfo.ofValues (generate_datetime now v)

/-! ### Database row models (db_models.py)

The defect table row (class with table=True, aliased DefectInfoTable in
sql_operations.py) has one column per field below, with id declared as
primary key.  Note that it has no board_number_label and no image_url
column. -/

/-- Row of the defect table (db_models.py, primary key id).  There is no
board_number_label column and no image_url column in the table. -/
structure DefectInfoTable where
  id : String
  line_name : String
  model_code : String
  lot_number : String
  current_board_index : Int
  defect_number : Int
  serial : String
  reference : String
  defect_name : String
  x : Int
  y : Int
  aoi_user : String
  insert_datetime : String
  model_label : String
  board_label : String
  kintone_record_id : String
deriving DecidableEq

/-- Row of the repair table (db_models.py, primary key id). -/
structure RepairdInfoTable where
  id : String
  is_repaird : Bool
  parts_type : String
  insert_datetime : String
  kintone_record_id : String
deriving DecidableEq

/-- Defect branch of SqlOperations.schema_to_db_model: copies every listed
field verbatim; board_number_label and image_url are not copied (the table
has no such columns). -/
def schema_to_db_model_defect (s : DefectInfo) : DefectInfoTable where
  id := s.id
  line_name := s.line_name
  model_code := s.model_code
  lot_number := s.lot_number
  current_board_index := s.current_board_index
  defect_number := s.defect_number
  serial := s.serial
  reference := s.reference
  defect_name := s.defect_name
  x := s.x
  y := s.y
  aoi_user := s.aoi_user
  insert_datetime := s.insert_datetime
  model_label := s.model_label
  board_label := s.board_label
  kintone_record_id := s.kintone_record_id

/-- Repair branch of SqlOperations.schema_to_db_model. -/
def schema_to_db_model_repaird (s : RepairdInfo) : RepairdInfoTable where
  id := s.id
  is_repaird := s.is_repaird
  parts_type := s.parts_type
  insert_datetime := s.insert_datetime
  kintone_record_id := s.kintone_record_id

/-- Defect branch of SqlOperations.db_model_to_schema: re-runs the schema
constructor (hence the model validator) on the column values of the row. -/
def db_model_to_schema_defect (now : String) (r : DefectInfoTable) : DefectInfo :=
  DefectInfo.construct now
    { id := some r.id
      line_name := some r.line_name
      model_code := some r.model_code
      lot_number := some r.lot_number
      current_board_index := some r.current_board_index
      defect_number := some r.defect_number
      serial := some r.serial
      reference := some r.reference
      defect_name := some r.defect_name
      x := some r.x
      y := some r.y
      aoi_user := some r.aoi_user
      insert_datetime := some r.insert_datetime
      model_label := some r.model_label
      board_label := some r.board_label
      kintone_record_id := some r.kintone_record_id }

/-- Repair branch of SqlOperations.db_model_to_schema. -/
def db_model_to_schema_repaird (now : String) (r : RepairdInfoTable) : RepairdInfo :=
  RepairdInfo.construct now
    { id := some r.id
      is_repaird := some r.is_repaird
      parts_type := some r.parts_type
      insert_datetime := some r.insert_datetime
      kintone_record_id := some r.kintone_record_id }

/-! ### Generic table primitives

A table is a list of rows with a key projection; the primitives below model
the SQLAlchemy session operations used by sql_operations.py: get by primary
key, merge (update the existing row in place or insert), strict add, and
delete of the row got by primary key. -/

/-- Point lookup by primary key (session.get). -/
def lookupBy (key : α → String) (t : List α) (i : String) : Option α :=
  t.find? (fun x => key x == i)

/-- Session merge of one row: if a row with the same key exists it is
overwritten in place with the new values, otherwise the row is appended. -/
def upsertBy (key : α → String) (t : List α) (r : α) : List α :=
  if t.any (fun x => key x == key r) then
    t.map (fun x => if key x == key r then r else x)
  else t ++ [r]

/-- Deletion of the row got by primary key (session.get then
session.delete); removes the first row with the key, if any. -/
def deleteBy (key : α → String) (t : List α) (i : String) : List α :=
  t.eraseP (fun x => key x == i)

/-- Sequential strict insertion of rows into a table within one
transaction: the primary key constraint rejects a row whose key is already
present (IntegrityError), aborting the whole transaction. -/
def insertAllStrictBy (key : α → String) : List α → List α → Option (List α)
  | t, [] => some t
  | t, r :: rest =>
    if t.any (fun x => key x == key r) then none
    else insertAllStrictBy key (t ++ [r]) rest

/-! ### The store and the CRUD engine (sql_operations.py, SqlOperations) -/

/-- Error taxonomy of the storage layer: the distinct handle-closed
RuntimeError raised by check_connection, the IntegrityError of a primary
key violation, and an underlying storage or connection error. -/
inductive DbError where
  | handleClosed
  | constraintViolation
  | storageError
deriving DecidableEq

/-- State of one file-backed database: whether create_tables has run, the
defect table and the repair table. -/
structure Store where
  tablesCreated : Bool
  defects : List DefectInfoTable
  repairs : List RepairdInfoTable
deriving DecidableEq

/-- Fresh database file: no tables, no rows. -/
def Store.empty : Store := ⟨false, [], []⟩

/-- SqlOperations.create_tables: idempotently ensures both tables exist. -/
def create_tables (s : Store) : Store := { s with tablesCreated := true }

/-- SqlOperations.insert_defect_info: strict single insert; a duplicate
primary key raises IntegrityError and the rollback leaves the store
unchanged. -/
def insert_defect_info (s : Store) (info : DefectInfo) :
    Except DbError Unit × Store :=
  let r := schema_to_db_model_defect info
  if s.defects.any (fun x => x.id == r.id) then (.error .constraintViolation, s)
  else (.ok (), { s with defects := s.defects ++ [r] })

/-- SqlOperations.insert_defect_infos: strict batch insert in one
transaction; if any row fails the rollback leaves the store unchanged. -/
def insert_defect_infos (s : Store) (infos : List DefectInfo) :
    Except DbError Unit × Store :=
  match insertAllStrictBy DefectInfoTable.id s.defects
      (infos.map schema_to_db_model_defect) with
  | some t => (.ok (), { s with defects := t })
  | none => (.error .constraintViolation, s)

/-- SqlOperations.insert_repaird_info: strict single insert of a repair
record. -/
def insert_repaird_info (s : Store) (info : RepairdInfo) :
    Except DbError Unit × Store :=
  let r := schema_to_db_model_repaird info
  if s.repairs.any (fun x => x.id == r.id) then (.error .constraintViolation, s)
  else (.ok (), { s with repairs := s.repairs ++ [r] })

/-- SqlOperations.insert_repaird_info_batch: strict batch insert of repair
records in one transaction. -/
def insert_repaird_info_batch (s : Store) (infos : List RepairdInfo) :
    Except DbError Unit × Store :=
  match insertAllStrictBy RepairdInfoTable.id s.repairs
      (infos.map schema_to_db_model_repaird) with
  | some t => (.ok (), { s with repairs := t })
  | none => (.error .constraintViolation, s)

/-- SqlOperations.merge_insert_defect_info: session merge of one defect
record (update if the id exists, insert otherwise). -/
def merge_insert_defect_info (s : Store) (info : DefectInfo) : Store :=
  { s with defects := (upsertBy DefectInfoTable.id s.defects
      (schema_to_db_model_defect info)) }

/-- SqlOperations.merge_insert_defect_infos: session merge of a list of
defect records, in list order, committed as one transaction. -/
def merge_insert_defect_infos (s : Store) (infos : List DefectInfo) : Store :=
  { s with defects := (infos.foldl
      (fun t i => upsertBy DefectInfoTable.id t (schema_to_db_model_defect i))
      s.defects) }

/-- SqlOperations.merge_repaird_info_batch: session merge of a list of
repair records, in list order, committed as one transaction. -/
def merge_repaird_info_batch (s : Store) (infos : List RepairdInfo) : Store :=
  { s with repairs := (infos.foldl
      (fun t i => upsertBy RepairdInfoTable.id t (schema_to_db_model_repaird i))
      s.repairs) }

/-- SqlOperations.get_defect_info_by_id: point lookup, absent gives None. -/
def get_defect_info_by_id (now : String) (s : Store) (defect_id : String) :
    Option DefectInfo :=
  (lookupBy DefectInfoTable.id s.defects defect_id).map (db_model_to_schema_defect now)

/-- SqlOperations.get_all_defect_info: full scan of the defect table. -/
def get_all_defect_info (now : String) (s : Store) : List DefectInfo :=
  s.defects.map (db_model_to_schema_defect now)

/-- SqlOperations.get_defect_info_by_lot: defect rows whose lot_number
column equals the argument. -/
def get_defect_info_by_lot (now : String) (s : Store) (lot : String) :
    List DefectInfo :=
  (s.defects.filter (fun r => r.lot_number == lot)).map (db_model_to_schema_defect now)

/-- SqlOperations.get_repaird_info_by_id: point lookup in the repair
table. -/
def get_repaird_info_by_id (now : String) (s : Store) (repair_id : String) :
    Option RepairdInfo :=
  (lookupBy RepairdInfoTable.id s.repairs repair_id).map (db_model_to_schema_repaird now)

/-- SqlOperations.get_all_repaird_info: full scan of the repair table. -/
def get_all_repaird_info (now : String) (s : Store) : List RepairdInfo :=
  s.repairs.map (db_model_to_schema_repaird now)

/-- SqlOperations.delete_defect_info: deletes the defect row with the id if
present, returning whether a row was removed; touches only the defect
table. -/
def delete_defect_info (s : Store) (defect_id : String) : Bool × Store :=
  match lookupBy DefectInfoTable.id s.defects defect_id with
  | some _ => (true, { s with defects := deleteBy DefectInfoTable.id s.defects defect_id })
  | none => (false, s)

/-- SqlOperations.delete_defect_infos: deletes each listed id if present,
returning the count actually removed. -/
def delete_defect_infos (s : Store) (defect_ids : List String) : Nat × Store :=
  defect_ids.foldl
    (fun acc i =>
      match lookupBy DefectInfoTable.id acc.2.defects i with
      | some _ => (acc.1 + 1,
          { acc.2 with defects := deleteBy DefectInfoTable.id acc.2.defects i })
      | none => acc)
    (0, s)

/-- SqlOperations.delete_repaird_info: deletes the repair row with the id
if present; touches only the repair table. -/
def delete_repaird_info (s : Store) (repair_id : String) : Bool × Store :=
  match lookupBy RepairdInfoTable.id s.repairs repair_id with
  | some _ => (true, { s with repairs := deleteBy RepairdInfoTable.id s.repairs repair_id })
  | none => (false, s)

/-- SqlOperations.delete_repaird_infos: deletes each listed repair id if
present, returning the count actually removed. -/
def delete_repaird_infos (s : Store) (repair_ids : List String) : Nat × Store :=
  repair_ids.foldl
    (fun acc i =>
      match lookupBy RepairdInfoTable.id acc.2.repairs i with
      | some _ => (acc.1 + 1,
          { acc.2 with repairs := deleteBy RepairdInfoTable.id acc.2.repairs i })
      | none => acc)
    (0, s)

/-! ### Storage handle lifecycle (sql_operations.py, SqlOperations handle)

A handle owns one engine bound to a file; close disposes it exactly once.
Every data operation first runs check_connection, which raises the distinct
handle-closed RuntimeError when the handle has been closed. -/

/-- A storage handle: the closed flag together with the state of the
database file the engine is bound to. -/
structure Handle where
  closed : Bool
  store : Store
deriving DecidableEq

/-- SqlOperations.close: disposes the engine on the first call and marks
the handle closed; any later call finds the flag set and does nothing.  It
never raises. -/
def Handle.close (h : Handle) : Handle :=
  if h.closed then h else { h with closed := true }

/-- One public data operation of SqlOperations, with its arguments. -/
inductive DbOp where
  | createTables
  | insertDefect (info : DefectInfo)
  | insertDefects (infos : List DefectInfo)
  | mergeInsertDefect (info : DefectInfo)
  | mergeInsertDefects (infos : List DefectInfo)
  | insertRepaird (info : RepairdInfo)
  | getDefectById (defect_id : String)
  | getAllDefect
  | getDefectByLot (lot : String)
  | getRepairdById (repair_id : String)
  | getAllRepaird
  | insertDefectBatch (infos : List DefectInfo)
  | insertRepairdBatch (infos : List RepairdInfo)
  | mergeRepairdBatch (infos : List RepairdInfo)
  | deleteDefect (defect_id : String)
  | deleteDefects (defect_ids : List String)
  | deleteRepaird (repair_id : String)
  | deleteRepairds (repair_ids : List String)
deriving DecidableEq

/-- Value returned by a data operation. -/
inductive OpResult where
  | ok
  | defectOpt (r : Option DefectInfo)
  | defectList (l : List DefectInfo)
  | repairdOpt (r : Option RepairdInfo)
  | repairdList (l : List RepairdInfo)
  | deleted (b : Bool)
  | deletedCount (n : Nat)
deriving DecidableEq

/-- Runs one public data operation on a handle.  Every operation first
performs the check_connection assertion: on a closed handle it raises the
distinct handle-closed error and performs no storage access.  On an open
handle it runs the corresponding store operation; a failing mutation rolls
its transaction back, leaving the store as it was. -/
def runOp (now : String) (h : Handle) (op : DbOp) :
    Except DbError OpResult × Handle :=
  if h.closed then (.error .handleClosed, h)
  else
    match op with
    | .createTables => (.ok .ok, { h with store := create_tables h.store })
    | .insertDefect info =>
      let r := insert_defect_info h.store info
      (r.1.map (fun _ => .ok), { h with store := r.2 })
    | .insertDefects infos =>
      let r := insert_defect_infos h.store infos
      (r.1.map (fun _ => .ok), { h with store := r.2 })
    | .mergeInsertDefect info =>
      (.ok .ok, { h with store := merge_insert_defect_info h.store info })
    | .mergeInsertDefects infos =>
      (.ok .ok, { h with store := merge_insert_defect_infos h.store infos })
    | .insertRepaird info =>
      let r := insert_repaird_info h.store info
      (r.1.map (fun _ => .ok), { h with store := r.2 })
    | .getDefectById i => (.ok (.defectOpt (get_defect_info_by_id now h.store i)), h)
    | .getAllDefect => (.ok (.defectList (get_all_defect_info now h.store)), h)
    | .getDefectByLot lot => (.ok (.defectList (get_defect_info_by_lot now h.store lot)), h)
    | .getRepairdById i => (.ok (.repairdOpt (get_repaird_info_by_id now h.store i)), h)
    | .getAllRepaird => (.ok (.repairdList (get_all_repaird_info now h.store)), h)
    | .insertDefectBatch infos =>
      let r := insert_defect_infos h.store infos
      (r.1.map (fun _ => .ok), { h with store := r.2 })
    | .insertRepairdBatch infos =>
      let r := insert_repaird_info_batch h.store infos
      (r.1.map (fun _ => .ok), { h with store := r.2 })
    | .mergeRepairdBatch infos =>
      (.ok .ok, { h with store := merge_repaird_info_batch h.store infos })
    | .deleteDefect i =>
      let r := delete_defect_info h.store i
      (.ok (.deleted r.1), { h with store := r.2 })
    | .deleteDefects is =>
      let r := delete_defect_infos h.store is
      (.ok (.deletedCount r.1), { h with store := r.2 })
    | .deleteRepaird i =>
      let r := delete_repaird_info h.store i
      (.ok (.deleted r.1), { h with store := r.2 })
    | .deleteRepairds is =>
      let r := delete_repaird_infos h.store is
      (.ok (.deletedCount r.1), { h with store := r.2 })

/-! ### The merge engine (SqlOperations.merge_target_database)

The static method opens a source and a target handle, ensures the schema on
both, reads all defect records from source and session-merges them into
target, applies the explicit defect deletions, then does the same for
repair records, and closes both handles in a finally block.

Failures of the source store are injected through explicit flags: the first
source access is source create_tables (a failure there is the source being
impossible to open), and the two source reads are get_all_defect_info and
get_all_repaird_info.  The run returns the outcome together with the final
state of the target store, which on the error path is the state the target
had when the error was raised (closing a handle does not modify its
database file). -/

/-- Failure schedule of the source store during a merge run. -/
structure SourceFailure where
  createTablesFails : Bool
  readDefectsFails : Bool
  readRepairsFails : Bool
deriving DecidableEq

/-- No source failure: every source access succeeds. -/
def SourceFailure.none : SourceFailure := ⟨false, false, false⟩

/-- Execution of SqlOperations.merge_target_database under a source
failure schedule, following the statement order of the method body. -/
def merge_target_database_run (now : String) (source target : Store)
    (delete_defect_ids delete_repaird_ids : List String)
    (f : SourceFailure) : Except DbError Unit × Store :=
  if f.createTablesFails then (.error .storageError, target)
  else
    let target1 := create_tables target
    if f.readDefectsFails then (.error .storageError, target1)
    else
      let target2 := merge_insert_defect_infos target1 (get_all_defect_info now source)
      let target3 := delete_defect_ids.foldl (fun t i => (delete_defect_info t i).2) target2
      if f.readRepairsFails then (.error .storageError, target3)
      else
        let target4 := merge_repaird_info_batch target3 (get_all_repaird_info now source)
        let target5 := delete_repaird_ids.foldl (fun t i => (delete_repaird_info t i).2) target4
        (.ok (), target5)

/-- SqlOperations.merge_target_database on the failure-free path: the
resulting state of the target store. -/
def merge_target_database (now : String) (source target : Store)
    (delete_defect_ids delete_repaird_ids : List String) : Store :=
  (merge_target_database_run now source target delete_defect_ids
    delete_repaird_ids SourceFailure.none).2

/-! ### Concrete sample rows, used only in witness statements -/

/-- Minimal defect table row with the given id and lot, a non-empty
insert_datetime, and default values elsewhere. -/
def mkDefectRow (i lot : String) : DefectInfoTable :=
  ⟨i, "", "", lot, 0, 0, "", "", "", 0, 0, "", "2024-01-01", "", "", ""⟩

/-- Minimal repair table row with the given id and a non-empty
insert_datetime. -/
def mkRepairdRow (i : String) : RepairdInfoTable :=
  ⟨i, false, "", "2024-01-01", ""⟩

/-- Minimal schema-level defect record with the given id and lot. -/
def mkDefectSchema (i lot : String) : DefectInfo :=
  ⟨i, "", "", lot, 0, 0, "", "", "", 0, 0, "", "2024-01-01", "", "", "", Option.none, ""⟩

/-- Minimal schema-level repair record with the given id. -/
def mkRepairdSchema (i : String) : RepairdInfo :=
  ⟨i, false, "", "2024-01-01", ""⟩

/-! ### Lemmas: decimal representation -/

theorem chVal_digitChar (n : Nat) (h : n < 10) : chVal (Nat.digitChar n) = n := by
  interval_cases n <;> decide

theorem digitChar_ne_dash (n : Nat) (h : n < 10) : Nat.digitChar n ≠ '-' := by
  interval_cases n <;> decide

theorem natChars_ne_nil (n : Nat) : natChars n ≠ [] := by
  rw [natChars]; split
  · simp
  · simp

theorem ofDigitChars_append_singleton (l : List Char) (c : Char) :
    ofDigitChars (l ++ [c]) = 10 * ofDigitChars l + chVal c := by
  simp [ofDigitChars, List.foldl_append]

theorem ofDigitChars_natChars (n : Nat) : ofDigitChars (natChars n) = n := by
  induction n using Nat.strong_induction_on with
  | _ n ih =>
    rw [natChars]
    split
    · rename_i h
      simp [ofDigitChars, chVal_digitChar n h]
    · rename_i h
      have hlt : n / 10 < n := Nat.div_lt_self (by omega) (by omega)
      rw [ofDigitChars_append_singleton, ih (n / 10) hlt,
        chVal_digitChar (n % 10) (Nat.mod_lt n (by omega))]
      omega

theorem natChars_injective : Function.Injective natChars := by
  intro m n h
  have := congrArg ofDigitChars h
  simpa [ofDigitChars_natChars] using this

theorem natChars_head_ne_dash (n : Nat) :
    ∃ c t, natChars n = c :: t ∧ c ≠ '-' := by
  induction n using Nat.strong_induction_on with
  | _ n ih =>
    rw [natChars]
    split
    · rename_i h
      exact ⟨Nat.digitChar n, [], rfl, digitChar_ne_dash n h⟩
    · rename_i h
      have hlt : n / 10 < n := Nat.div_lt_self (by omega) (by omega)
      obtain ⟨c, t, heq, hc⟩ := ih (n / 10) hlt
      exact ⟨c, t ++ [Nat.digitChar (n % 10)], by rw [heq]; simp, hc⟩

theorem toDigitsCore_eq_natChars (f : Nat) :
    ∀ (n : Nat) (acc : List Char), n ≤ f →
      Nat.toDigitsCore 10 (f + 1) n acc = natChars n ++ acc := by
  induction f with
  | zero =>
    intro n acc hn
    have h0 : n = 0 := Nat.le_zero.mp hn
    subst h0
    rw [natChars]
    simp [Nat.toDigitsCore]
  | succ f ih =>
    intro n acc hn
    by_cases h10 : n / 10 = 0
    · have hlt : n < 10 := by omega
      conv_lhs => rw [Nat.toDigitsCore]
      rw [natChars]
      simp [h10, hlt, Nat.mod_eq_of_lt hlt]
    · have hge : 10 ≤ n := by
        by_contra hcon
        exact h10 (Nat.div_eq_of_lt (by omega))
      have hlt : n / 10 < n := Nat.div_lt_self (by omega) (by omega)
      conv_lhs => rw [Nat.toDigitsCore]
      simp only [h10, if_false]
      rw [ih (n / 10) (Nat.digitChar (n % 10) :: acc) (by omega)]
      conv_rhs => rw [natChars]
      have hnlt : ¬ n < 10 := by omega
      simp [hnlt]

theorem natRepr_eq_natChars (n : Nat) : Nat.repr n = (natChars n).asString := by
  have := toDigitsCore_eq_natChars n n [] (le_refl n)
  simp only [Nat.repr, Nat.toDigits, this, List.append_nil]

theorem asString_injective (l m : List Char) (h : l.asString = m.asString) : l = m := by
  have := congrArg String.data h
  simpa [List.asString] using this

theorem natRepr_injective : Function.Injective Nat.repr := by
  intro m n h
  rw [natRepr_eq_natChars, natRepr_eq_natChars] at h
  exact natChars_injective (asString_injective _ _ h)

theorem natRepr_data_head_ne_dash (n : Nat) :
    ∃ c t, (Nat.repr n).data = c :: t ∧ c ≠ '-' := by
  obtain ⟨c, t, heq, hc⟩ := natChars_head_ne_dash n
  refine ⟨c, t, ?_, hc⟩
  rw [natRepr_eq_natChars]
  simp [List.asString, heq]

theorem intToString_ofNat (m : Nat) : toString (Int.ofNat m) = Nat.repr m := rfl

theorem intToString_negSucc (m : Nat) :
    toString (Int.negSucc m) = "-" ++ Nat.repr (m + 1) := rfl

theorem intToString_injective : Function.Injective (toString : Int → String) := by
  intro i j h
  cases i with
  | ofNat m =>
    cases j with
    | ofNat n =>
      rw [intToString_ofNat, intToString_ofNat] at h
      exact congrArg Int.ofNat (natRepr_injective h)
    | negSucc n =>
      rw [intToString_ofNat, intToString_negSucc] at h
      obtain ⟨c, t, heq, hc⟩ := natRepr_data_head_ne_dash m
      have hd := congrArg String.data h
      rw [String.data_append, heq] at hd
      exact absurd (List.head_eq_of_cons_eq hd) hc
  | negSucc m =>
    cases j with
    | ofNat n =>
      rw [intToString_negSucc, intToString_ofNat] at h
      obtain ⟨c, t, heq, hc⟩ := natRepr_data_head_ne_dash n
      have hd := congrArg String.data h.symm
      rw [String.data_append, heq] at hd
      exact absurd (List.head_eq_of_cons_eq hd) hc
    | negSucc n =>
      rw [intToString_negSucc, intToString_negSucc] at h
      have hd := congrArg String.data h
      rw [String.data_append, String.data_append] at hd
      have hdata : (Nat.repr (m + 1)).data = (Nat.repr (n + 1)).data :=
        List.append_cancel_left hd
      have hmn : m + 1 = n + 1 := natRepr_injective (String.ext hdata)
      have hmn2 : m = n := by omega
      rw [hmn2]

/-! ### Lemmas: string cancellation and namespace injectivity -/

theorem strAppend_left_cancel {u s t : String} (h : u ++ s = u ++ t) : s = t := by
  have hd := congrArg String.data h
  simp [String.data_append] at hd
  exact String.ext hd

theorem strAppend_right_cancel {u s t : String} (h : s ++ u = t ++ u) : s = t := by
  have hd := congrArg String.data h
  simp [String.data_append] at hd
  exact String.ext hd

theorem uuid5_dns_injective : Function.Injective uuid5_dns := by
  intro s t h
  exact strAppend_left_cancel h

theorem defectNamespace_inj_dn {lot : String} {i d1 d2 : Int}
    (h : defectNamespace lot i d1 = defectNamespace lot i d2) : d1 = d2 := by
  unfold defectNamespace at h
  exact intToString_injective (strAppend_left_cancel h)

theorem defectNamespace_inj_idx {lot : String} {i1 i2 d : Int}
    (h : defectNamespace lot i1 d = defectNamespace lot i2 d) : i1 = i2 := by
  unfold defectNamespace at h
  have hd := congrArg String.data h
  simp only [String.data_append, List.append_assoc] at hd
  have h1 := List.append_cancel_left hd
  have h2 := List.append_cancel_left h1
  have h3 := List.append_cancel_right h2
  exact intToString_injective (String.ext h3)

theorem defectNamespace_inj_lot {lot1 lot2 : String} {i d : Int}
    (h : defectNamespace lot1 i d = defectNamespace lot2 i d) : lot1 = lot2 := by
  unfold defectNamespace at h
  have hd := congrArg String.data h
  simp only [String.data_append, List.append_assoc] at hd
  exact String.ext (List.append_cancel_right hd)

/-! ### Lemmas: identity generation at construction -/

theorem construct_id_of_falsy (now : String) (v : DefectValues)
    (h : pyFalsy v.id = true) :
    (DefectInfo.construct now v).id
      = uuid5_dns (defectNamespace (v.lot_number.getD "")
          (v.current_board_index.getD 0) (v.defect_number.getD 0)) := by
  unfold DefectInfo.construct generate_id_and_datetime DefectInfo.ofValues
  simp only [h, if_true]
  split <;> rfl

theorem construct_id_of_explicit (now : String) (v : DefectValues) (s : String)
    (hv : v.id = some s) (hs : s ≠ "") :
    (DefectInfo.construct now v).id = s := by
  have hfalsy : pyFalsy v.id = false := by simp [pyFalsy, hv, hs]
  unfold DefectInfo.construct generate_id_and_datetime DefectInfo.ofValues
  simp only [hfalsy, Bool.false_eq_true, if_false]
  split <;> simp [hv]

theorem construct_datetime_of_falsy (now : String) (v : DefectValues)
    (h : pyFalsy v.insert_datetime = true) :
    (DefectInfo.construct now v).insert_datetime = now := by
  unfold DefectInfo.construct generate_id_and_datetime DefectInfo.ofValues
  split <;> simp [h]

/-! ### Claim C2: identity determinism -/

/-- C2: constructing two Defect Records with the same
(lot_number, current_board_index, defect_number) triple and no explicit
identity yields equal identity strings, regardless of every other field and
of the clock; changing exactly one component of the triple yields a
different identity; and a non-empty explicit identity supplied at
construction is kept unchanged. -/
theorem claim_C2_identity_determinism :
    (∀ (lot : String) (i d : Int) (v1 v2 : DefectValues) (now1 now2 : String),
      v1.id = none → v2.id = none →
      v1.lot_number = some lot → v2.lot_number = some lot →
      v1.current_board_index = some i → v2.current_board_index = some i →
      v1.defect_number = some d → v2.defect_number = some d →
      (DefectInfo.construct now1 v1).id = (DefectInfo.construct now2 v2).id)
    ∧
    (∀ (lot1 lot2 : String) (i1 i2 d1 d2 : Int) (v1 v2 : DefectValues)
      (now1 now2 : String),
      v1.id = none → v2.id = none →
      v1.lot_number = some lot1 → v2.lot_number = some lot2 →
      v1.current_board_index = some i1 → v2.current_board_index = some i2 →
      v1.defect_number = some d1 → v2.defect_number = some d2 →
      ((lot1 ≠ lot2 ∧ i1 = i2 ∧ d1 = d2) ∨ (lot1 = lot2 ∧ i1 ≠ i2 ∧ d1 = d2) ∨
        (lot1 = lot2 ∧ i1 = i2 ∧ d1 ≠ d2)) →
      (DefectInfo.construct now1 v1).id ≠ (DefectInfo.construct now2 v2).id)
    ∧
    (∀ (now : String) (v : DefectValues) (s : String),
      v.id = some s → s ≠ "" → (DefectInfo.construct now v).id = s) := by
  refine ⟨?_, ?_, ?_⟩
  · intro lot i d v1 v2 now1 now2 h1 h2 hl1 hl2 hi1 hi2 hd1 hd2
    rw [construct_id_of_falsy now1 v1 (by simp [pyFalsy, h1]),
      construct_id_of_falsy now2 v2 (by simp [pyFalsy, h2])]
    rw [hl1, hl2, hi1, hi2, hd1, hd2]
  · intro lot1 lot2 i1 i2 d1 d2 v1 v2 now1 now2 h1 h2 hl1 hl2 hi1 hi2 hd1 hd2 hone heq
    rw [construct_id_of_falsy now1 v1 (by simp [pyFalsy, h1]),
      construct_id_of_falsy now2 v2 (by simp [pyFalsy, h2])] at heq
    rw [hl1, hl2, hi1, hi2, hd1, hd2] at heq
    simp only [Option.getD_some] at heq
    have hns := uuid5_dns_injective heq
    rcases hone with ⟨hne, hi, hd⟩ | ⟨hl, hne, hd⟩ | ⟨hl, hi, hne⟩
    · subst hi; subst hd; exact hne (defectNamespace_inj_lot hns)
    · subst hl; subst hd; exact hne (defectNamespace_inj_idx hns)
    · subst hl; subst hi; exact hne (defectNamespace_inj_dn hns)
  · intro now v s hv hs
    exact construct_id_of_explicit now v s hv hs

/-- Witness for C2 at concrete inputs: two constructions with the triple
(LOT1, 1, 2) and different clocks and unrelated fields agree; changing only
the board index changes the identity; an explicit identity is kept. -/
theorem claim_C2_identity_determinism_witness :
    ((DefectInfo.construct "2024-01-01"
        { id := none, lot_number := some "LOT1", current_board_index := some 1,
          defect_number := some 2, aoi_user := some "alice" }).id
      = (DefectInfo.construct "2025-06-30"
        { id := none, lot_number := some "LOT1", current_board_index := some 1,
          defect_number := some 2, serial := some "QR77" }).id)
    ∧ ((DefectInfo.construct "2024-01-01"
        { id := none, lot_number := some "LOT1", current_board_index := some 1,
          defect_number := some 2 }).id
      ≠ (DefectInfo.construct "2024-01-01"
        { id := none, lot_number := some "LOT1", current_board_index := some 3,
          defect_number := some 2 }).id)
    ∧ ((DefectInfo.construct "2024-01-01"
        { id := some "explicit-id-9", lot_number := some "LOT1",
          current_board_index := some 1, defect_number := some 2 }).id
      = "explicit-id-9") := by
  refine ⟨?_, ?_, ?_⟩
  · exact claim_C2_identity_determinism.1 "LOT1" 1 2 _ _ _ _
      rfl rfl rfl rfl rfl rfl rfl rfl
  · exact claim_C2_identity_determinism.2.1 "LOT1" "LOT1" 1 3 2 2 _ _ _ _
      rfl rfl rfl rfl rfl rfl rfl rfl (Or.inr (Or.inl ⟨rfl, by decide, rfl⟩))
  · exact claim_C2_identity_determinism.2.2 "2024-01-01" _ "explicit-id-9"
      rfl (by decide)

/-! ### Claim C10: empty explicit identity and empty datetime -/

/-- C10: constructing a Defect Record with the identity explicitly supplied
as the empty string is treated exactly as supplying no identity: the whole
constructed record coincides, and the identity is generated from the
(lot_number, current_board_index, defect_number) triple; only a non-empty
explicit identity suppresses generation; and an explicitly supplied empty
insert_datetime is replaced by the current timestamp. -/
theorem claim_C10_empty_identity_and_datetime :
    (∀ (now : String) (v : DefectValues),
      DefectInfo.construct now { v with id := some "" }
        = DefectInfo.construct now { v with id := none })
    ∧ (∀ (now : String) (v : DefectValues),
      (DefectInfo.construct now { v with id := some "" }).id
        = uuid5_dns (defectNamespace (v.lot_number.getD "")
            (v.current_board_index.getD 0) (v.defect_number.getD 0)))
    ∧ (∀ (now : String) (v : DefectValues) (s : String), s ≠ "" →
      (DefectInfo.construct now { v with id := some s }).id = s)
    ∧ (∀ (now : String) (v : DefectValues),
      (DefectInfo.construct now { v with insert_datetime := some "" }).insert_datetime
        = now) := by
  refine ⟨?_, ?_, ?_, ?_⟩
  · intro now v
    unfold DefectInfo.construct generate_id_and_datetime
    simp [pyFalsy]
  · intro now v
    exact construct_id_of_falsy now { v with id := some "" } (by simp [pyFalsy])
  · intro now v s hs
    exact construct_id_of_explicit now { v with id := some s } s rfl hs
  · intro now v
    exact construct_datetime_of_falsy now { v with insert_datetime := some "" }
      (by simp [pyFalsy])

/-- Witness for C10 at concrete inputs. -/
theorem claim_C10_empty_identity_and_datetime_witness :
    (DefectInfo.construct "2024-01-01"
        { id := some "", lot_number := some "LOT2", current_board_index := some 4,
          defect_number := some 5 }
      = DefectInfo.construct "2024-01-01"
        { id := none, lot_number := some "LOT2", current_board_index := some 4,
          defect_number := some 5 })
    ∧ ((DefectInfo.construct "2024-01-01"
        { id := some "keep-me", lot_number := some "LOT2",
          current_board_index := some 4, defect_number := some 5 }).id = "keep-me")
    ∧ ((DefectInfo.construct "2024-01-01"
        { insert_datetime := some "", lot_number := some "LOT2" }).insert_datetime
      = "2024-01-01") := by
  refine ⟨?_, ?_, ?_⟩
  · exact claim_C10_empty_identity_and_datetime.1 "2024-01-01"
      { lot_number := some "LOT2", current_board_index := some 4, defect_number := some 5 }
  · exact claim_C10_empty_identity_and_datetime.2.2.1 "2024-01-01"
      { lot_number := some "LOT2", current_board_index := some 4, defect_number := some 5 }
      "keep-me" (by decide)
  · exact claim_C10_empty_identity_and_datetime.2.2.2 "2024-01-01"
      { lot_number := some "LOT2" }

/-! ### Lemmas: generic table primitives -/

section TableLemmas

variable {α : Type} (key : α → String)

theorem find?_cons_pos (p : α → Bool) (a : α) (l : List α) (h : p a = true) :
    List.find? p (a :: l) = some a := List.find?_cons_of_pos l h

theorem find?_cons_neg (p : α → Bool) (a : α) (l : List α) (h : ¬ p a = true) :
    List.find? p (a :: l) = List.find? p l := List.find?_cons_of_neg l h

theorem lookupBy_eq_none_iff (t : List α) (i : String) :
    lookupBy key t i = Option.none ↔ ∀ x ∈ t, key x ≠ i := by
  unfold lookupBy
  rw [List.find?_eq_none]
  simp

theorem lookupBy_mem_key (t : List α) (i : String) (r : α)
    (h : lookupBy key t i = some r) : r ∈ t ∧ key r = i := by
  unfold lookupBy at h
  refine ⟨List.mem_of_find?_eq_some h, ?_⟩
  have := List.find?_some h
  simpa using this

theorem lookupBy_append (t u : List α) (j : String) :
    lookupBy key (t ++ u) j = (lookupBy key t j).or (lookupBy key u j) := by
  unfold lookupBy
  exact List.find?_append

theorem lookupBy_eq_some_of_mem (t : List α) (r : α)
    (hmem : r ∈ t) (hnd : (t.map key).Nodup) :
    lookupBy key t (key r) = some r := by
  induction t with
  | nil => cases hmem
  | cons a t ih =>
    rw [List.map_cons, List.nodup_cons] at hnd
    unfold lookupBy
    rcases List.mem_cons.mp hmem with rfl | hmem2
    · rw [List.find?_cons_of_pos _ (by simp)]
    · have hne : ¬ ((key a == key r) = true) := by
        intro hcon
        have : key a = key r := by simpa using hcon
        exact hnd.1 (this ▸ List.mem_map_of_mem key hmem2)
      exact (List.find?_cons_of_neg t hne).trans (ih hmem2 hnd.2)

theorem eq_of_lookupBy_some (t : List α) (i : String) (r : α)
    (hnd : (t.map key).Nodup) (h : lookupBy key t i = some r) :
    ∀ x ∈ t, key x = i → x = r := by
  obtain ⟨hmem, hkey⟩ := lookupBy_mem_key key t i r h
  intro x hx hkx
  exact List.inj_on_of_nodup_map hnd hx hmem (by rw [hkx, hkey])

theorem lookupBy_upsertBy_self (t : List α) (r : α) :
    lookupBy key (upsertBy key t r) (key r) = some r := by
  unfold upsertBy
  by_cases hany : (t.any fun x => key x == key r) = true
  · rw [if_pos hany]
    unfold lookupBy
    rw [List.find?_map]
    have hfun : ((fun x => key x == key r) ∘ fun x => if (key x == key r) = true then r else x)
        = fun x => key x == key r := by
      funext x
      by_cases hx : (key x == key r) = true <;> simp [Function.comp, hx]
    rw [hfun]
    cases hf : List.find? (fun x => key x == key r) t with
    | none =>
      rw [List.find?_eq_none] at hf
      obtain ⟨x, hx, hkx⟩ := List.any_eq_true.mp hany
      exact absurd hkx (hf x hx)
    | some x =>
      have hk : key x = key r := by simpa using List.find?_some hf
      simp [hk]
  · rw [if_neg hany]
    unfold lookupBy
    rw [List.find?_append]
    have hnone : List.find? (fun x => key x == key r) t = none := by
      rw [List.find?_eq_none]
      intro x hx hcon
      exact hany (List.any_eq_true.mpr ⟨x, hx, hcon⟩)
    rw [hnone]
    simp

theorem lookupBy_upsertBy_ne (t : List α) (r : α) (j : String) (hj : j ≠ key r) :
    lookupBy key (upsertBy key t r) j = lookupBy key t j := by
  unfold upsertBy
  by_cases hany : (t.any fun x => key x == key r) = true
  · rw [if_pos hany]
    unfold lookupBy
    rw [List.find?_map]
    have hfun : ((fun x => key x == j) ∘ fun x => if (key x == key r) = true then r else x)
        = fun x => key x == j := by
      funext x
      by_cases hx : (key x == key r) = true
      · have hk : key x = key r := by simpa using hx
        simp [Function.comp, hx, hk]
      · simp [Function.comp, hx]
    rw [hfun]
    cases hf : List.find? (fun x => key x == j) t with
    | none => simp
    | some x =>
      have hkx : key x = j := by simpa using List.find?_some hf
      have hxx : (if (key x == key r) = true then r else x) = x := by
        rw [if_neg]
        intro hcon
        have : key x = key r := by simpa using hcon
        exact hj (hkx ▸ this)
      simp only [Option.map_some']
      rw [hxx]
  · rw [if_neg hany]
    unfold lookupBy
    rw [List.find?_append]
    have hone : List.find? (fun x => key x == j) [r] = none := by
      rw [List.find?_eq_none]
      intro x hx hcon
      rw [List.mem_singleton] at hx
      subst hx
      have hk : key x = j := by simpa using hcon
      exact hj hk.symm
    rw [hone, Option.or_none]

theorem nodup_upsertBy (t : List α) (r : α) (hnd : (t.map key).Nodup) :
    ((upsertBy key t r).map key).Nodup := by
  unfold upsertBy
  by_cases hany : (t.any fun x => key x == key r) = true
  · rw [if_pos hany, List.map_map]
    have hfun : (t.map (key ∘ fun x => if (key x == key r) = true then r else x)) = t.map key := by
      apply List.map_congr_left
      intro x _
      by_cases hx : (key x == key r) = true
      · have hk : key x = key r := by simpa using hx
        simp [Function.comp, hx, hk]
      · simp [Function.comp, hx]
    rw [hfun]
    exact hnd
  · rw [if_neg hany, List.map_append]
    rw [List.nodup_append]
    refine ⟨hnd, by simp, ?_⟩
    intro j hjt hjr
    rw [List.mem_map] at hjt
    obtain ⟨x, hx, hkx⟩ := hjt
    rw [List.map_singleton, List.mem_singleton] at hjr
    have hb : (key x == key r) = true := by simp [hkx, hjr]
    exact hany (List.any_eq_true.mpr ⟨x, hx, hb⟩)

theorem upsertBy_eq_self (t : List α) (r : α) (hnd : (t.map key).Nodup)
    (h : lookupBy key t (key r) = some r) : upsertBy key t r = t := by
  unfold upsertBy
  have hmem := (lookupBy_mem_key key t (key r) r h).1
  have hb : (key r == key r) = true := by simp
  rw [if_pos (List.any_eq_true.mpr ⟨r, hmem, hb⟩)]
  have hid : t.map (fun x => if (key x == key r) = true then r else x) = t.map id := by
    apply List.map_congr_left
    intro x hx
    by_cases hxk : (key x == key r) = true
    · have hk : key x = key r := by simpa using hxk
      have := eq_of_lookupBy_some key t (key r) r hnd h x hx hk
      simp [hxk, this]
    · simp [hxk]
  rw [hid, List.map_id]

theorem upsertBy_eq_append (t : List α) (r : α)
    (h : lookupBy key t (key r) = Option.none) : upsertBy key t r = t ++ [r] := by
  unfold upsertBy
  rw [if_neg]
  rw [lookupBy_eq_none_iff] at h
  intro hcon
  obtain ⟨x, hx, hkx⟩ := List.any_eq_true.mp hcon
  exact h x hx (by simpa using hkx)

theorem deleteBy_of_lookup_none (t : List α) (i : String)
    (h : lookupBy key t i = Option.none) : deleteBy key t i = t := by
  unfold deleteBy
  rw [lookupBy_eq_none_iff] at h
  exact List.eraseP_of_forall_not (fun x hx => by simpa using h x hx)

theorem lookupBy_deleteBy_self (t : List α) (i : String)
    (hnd : (t.map key).Nodup) :
    lookupBy key (deleteBy key t i) i = Option.none := by
  induction t with
  | nil => rfl
  | cons a t ih =>
    rw [List.map_cons, List.nodup_cons] at hnd
    unfold deleteBy at ih ⊢
    rw [List.eraseP_cons]
    by_cases ha : (key a == i) = true
    · rw [ha, cond_true]
      rw [lookupBy_eq_none_iff]
      intro x hx hcon
      have hk : key a = i := by simpa using ha
      exact hnd.1 (by rw [hk, ← hcon]; exact List.mem_map_of_mem key hx)
    · rw [Bool.not_eq_true] at ha
      rw [ha, cond_false]
      unfold lookupBy
      have hpa : ¬ ((key a == i) = true) := by simp [ha]
      exact (find?_cons_neg (fun x => key x == i) a _ hpa).trans (ih hnd.2)

theorem lookupBy_deleteBy_ne (t : List α) (i j : String) (hij : j ≠ i) :
    lookupBy key (deleteBy key t i) j = lookupBy key t j := by
  induction t with
  | nil => rfl
  | cons a t ih =>
    unfold deleteBy at ih ⊢
    rw [List.eraseP_cons]
    by_cases ha : (key a == i) = true
    · rw [ha, cond_true]
      have hk : key a = i := by simpa using ha
      unfold lookupBy
      have hpa : ¬ ((key a == j) = true) := by
        simp only [hk, beq_iff_eq]
        exact fun hcon => hij hcon.symm
      exact (find?_cons_neg (fun x => key x == j) a t hpa).symm
    · rw [Bool.not_eq_true] at ha
      rw [ha, cond_false]
      unfold lookupBy
      by_cases haj : (key a == j) = true
      · exact (find?_cons_pos (fun x => key x == j) a _ haj).trans
          (find?_cons_pos (fun x => key x == j) a t haj).symm
      · exact (find?_cons_neg (fun x => key x == j) a _ haj).trans
          (ih.trans (find?_cons_neg (fun x => key x == j) a t haj).symm)

theorem nodup_deleteBy (t : List α) (i : String) (hnd : (t.map key).Nodup) :
    ((deleteBy key t i).map key).Nodup :=
  (((List.eraseP_sublist t).map key).nodup) hnd

theorem deleteBy_eq_filter (t : List α) (i : String) (hnd : (t.map key).Nodup) :
    deleteBy key t i = t.filter (fun x => !(key x == i)) := by
  induction t with
  | nil => rfl
  | cons a t ih =>
    rw [List.map_cons, List.nodup_cons] at hnd
    unfold deleteBy at ih ⊢
    rw [List.eraseP_cons]
    by_cases ha : (key a == i) = true
    · rw [ha, cond_true, List.filter_cons_of_neg (by simp [ha])]
      have hk : key a = i := by simpa using ha
      rw [Eq.comm, List.filter_eq_self]
      intro x hx
      simp only [Bool.not_eq_eq_eq_not, Bool.not_true, beq_eq_false_iff_ne]
      intro hcon
      exact hnd.1 (by rw [hk, ← hcon]; exact List.mem_map_of_mem key hx)
    · rw [Bool.not_eq_true] at ha
      rw [ha, cond_false, List.filter_cons_of_pos (by simp [ha])]
      rw [ih hnd.2]

theorem lookupBy_foldl_upsertBy_not_mem (rs : List α) (t : List α) (j : String)
    (hj : ∀ r ∈ rs, key r ≠ j) :
    lookupBy key (rs.foldl (upsertBy key) t) j = lookupBy key t j := by
  induction rs generalizing t with
  | nil => rfl
  | cons a rs ih =>
    rw [List.foldl_cons]
    rw [ih _ (fun r hr => hj r (List.mem_cons_of_mem a hr))]
    exact lookupBy_upsertBy_ne key t a j
      (fun hcon => hj a (List.mem_cons_self a rs) hcon.symm)

theorem lookupBy_foldl_upsertBy_mem (rs : List α) (t : List α) (r : α)
    (hmem : r ∈ rs) (hnd : (rs.map key).Nodup) :
    lookupBy key (rs.foldl (upsertBy key) t) (key r) = some r := by
  induction rs generalizing t with
  | nil => cases hmem
  | cons a rs ih =>
    rw [List.map_cons, List.nodup_cons] at hnd
    rw [List.foldl_cons]
    rcases List.mem_cons.mp hmem with rfl | hmem2
    · rw [lookupBy_foldl_upsertBy_not_mem key rs _ (key r)
        (fun x hx hcon => hnd.1 (hcon ▸ List.mem_map_of_mem key hx))]
      exact lookupBy_upsertBy_self key t r
    · exact ih _ hmem2 hnd.2

theorem nodup_foldl_upsertBy (rs : List α) (t : List α)
    (hnd : (t.map key).Nodup) :
    ((rs.foldl (upsertBy key) t).map key).Nodup := by
  induction rs generalizing t with
  | nil => exact hnd
  | cons a rs ih =>
    rw [List.foldl_cons]
    exact ih _ (nodup_upsertBy key t a hnd)

theorem lookupBy_foldl_deleteBy (ids : List String) (t : List α) (j : String)
    (hnd : (t.map key).Nodup) :
    lookupBy key (ids.foldl (deleteBy key) t) j
      = if j ∈ ids then Option.none else lookupBy key t j := by
  induction ids generalizing t with
  | nil => simp
  | cons i ids ih =>
    rw [List.foldl_cons, ih _ (nodup_deleteBy key t i hnd)]
    by_cases hj : j ∈ ids
    · simp [hj, List.mem_cons]
    · by_cases hji : j = i
      · subst hji
        simp [hj, lookupBy_deleteBy_self key t j hnd, List.mem_cons]
      · simp [hj, hji, lookupBy_deleteBy_ne key t i j hji, List.mem_cons]

theorem nodup_foldl_deleteBy (ids : List String) (t : List α)
    (hnd : (t.map key).Nodup) :
    ((ids.foldl (deleteBy key) t).map key).Nodup := by
  induction ids generalizing t with
  | nil => exact hnd
  | cons i ids ih =>
    rw [List.foldl_cons]
    exact ih _ (nodup_deleteBy key t i hnd)

theorem foldl_deleteBy_eq_filter (ids : List String) (t : List α)
    (hnd : (t.map key).Nodup) :
    ids.foldl (deleteBy key) t = t.filter (fun x => decide (key x ∉ ids)) := by
  induction ids generalizing t with
  | nil => simp
  | cons i ids ih =>
    rw [List.foldl_cons, ih _ (nodup_deleteBy key t i hnd),
      deleteBy_eq_filter key t i hnd, List.filter_filter]
    apply List.filter_congr
    intro x _
    by_cases hxi : key x = i
    · simp [hxi, List.mem_cons]
    · by_cases hxids : key x ∈ ids <;> simp [hxi, hxids, List.mem_cons]

theorem foldl_upsertBy_of_split (t : List α) (hnd_t : (t.map key).Nodup) :
    ∀ (rs extra : List α),
      (rs.map key).Nodup →
      (extra.map key).Nodup →
      (∀ r ∈ rs, lookupBy key t (key r) = some r ∨ lookupBy key t (key r) = Option.none) →
      (∀ e ∈ extra, lookupBy key t (key e) = Option.none) →
      (∀ r ∈ rs, ∀ e ∈ extra, key r ≠ key e) →
      rs.foldl (upsertBy key) (t ++ extra)
        = t ++ extra ++ rs.filter (fun r => (lookupBy key t (key r)).isNone) := by
  intro rs
  induction rs with
  | nil =>
    intro extra _ _ _ _ _
    simp
  | cons a rs ih =>
    intro extra hnd_rs hnd_extra hsplit hextra hdisj
    rw [List.map_cons, List.nodup_cons] at hnd_rs
    have hnd_te : ((t ++ extra).map key).Nodup := by
      rw [List.map_append, List.nodup_append]
      refine ⟨hnd_t, hnd_extra, ?_⟩
      intro j hjt hje
      rw [List.mem_map] at hjt hje
      obtain ⟨x, hx, hkx⟩ := hjt
      obtain ⟨e, he, hke⟩ := hje
      have := hextra e he
      rw [lookupBy_eq_none_iff] at this
      exact this x hx (by rw [hkx, hke])
    rw [List.foldl_cons]
    rcases hsplit a (List.mem_cons_self a rs) with hsome | hnone
    · have hlook : lookupBy key (t ++ extra) (key a) = some a := by
        rw [lookupBy_append, hsome]
        rfl
      rw [upsertBy_eq_self key (t ++ extra) a hnd_te hlook]
      rw [ih extra hnd_rs.2 hnd_extra
        (fun r hr => hsplit r (List.mem_cons_of_mem a hr)) hextra
        (fun r hr => hdisj r (List.mem_cons_of_mem a hr))]
      rw [List.filter_cons_of_neg (by simp [hsome])]
    · have hlook : lookupBy key (t ++ extra) (key a) = Option.none := by
        rw [lookupBy_append, hnone, Option.none_or, lookupBy_eq_none_iff]
        intro e he hcon
        exact hdisj a (List.mem_cons_self a rs) e he hcon.symm
      rw [upsertBy_eq_append key (t ++ extra) a hlook, List.append_assoc]
      rw [ih (extra ++ [a]) hnd_rs.2 ?hndea ?hsp ?hex ?hdi]
      case hndea =>
        rw [List.map_append, List.nodup_append]
        refine ⟨hnd_extra, by simp, ?_⟩
        intro j hje hja
        rw [List.mem_map] at hje
        obtain ⟨e, he, hke⟩ := hje
        rw [List.map_singleton, List.mem_singleton] at hja
        exact hdisj a (List.mem_cons_self a rs) e he (hke.trans hja).symm
      case hsp => exact fun r hr => hsplit r (List.mem_cons_of_mem a hr)
      case hex =>
        intro e he
        rcases List.mem_append.mp he with he2 | he2
        · exact hextra e he2
        · rw [List.mem_singleton] at he2
          subst he2
          exact hnone
      case hdi =>
        intro r hr e he
        rcases List.mem_append.mp he with he2 | he2
        · exact hdisj r (List.mem_cons_of_mem a hr) e he2
        · rw [List.mem_singleton] at he2
          subst he2
          intro hcon
          exact hnd_rs.1 (hcon ▸ List.mem_map_of_mem key hr)
      rw [List.filter_cons_of_pos (by simp [hnone])]
      simp [List.append_assoc]

end TableLemmas

/-! ### Lemmas: conversion round trips and store-level bridging -/

theorem roundtrip_defect (now : String) (r : DefectInfoTable)
    (hid : r.id ≠ "") (hdt : r.insert_datetime ≠ "") :
    schema_to_db_model_defect (db_model_to_schema_defect now r) = r := by
  unfold db_model_to_schema_defect DefectInfo.construct generate_id_and_datetime
    DefectInfo.ofValues schema_to_db_model_defect
  simp [pyFalsy, hid, hdt]

theorem roundtrip_repaird (now : String) (r : RepairdInfoTable)
    (hdt : r.insert_datetime ≠ "") :
    schema_to_db_model_repaird (db_model_to_schema_repaird now r) = r := by
  unfold db_model_to_schema_repaird RepairdInfo.construct generate_datetime
    RepairdInfo.ofValues schema_to_db_model_repaird
  simp [pyFalsy, hdt]

theorem delete_defect_info_snd (s : Store) (i : String) :
    (delete_defect_info s i).2
      = { s with defects := deleteBy DefectInfoTable.id s.defects i } := by
  unfold delete_defect_info
  cases h : lookupBy DefectInfoTable.id s.defects i with
  | some r => rfl
  | none => simp [deleteBy_of_lookup_none _ _ _ h]

theorem delete_repaird_info_snd (s : Store) (i : String) :
    (delete_repaird_info s i).2
      = { s with repairs := deleteBy RepairdInfoTable.id s.repairs i } := by
  unfold delete_repaird_info
  cases h : lookupBy RepairdInfoTable.id s.repairs i with
  | some r => rfl
  | none => simp [deleteBy_of_lookup_none _ _ _ h]

theorem foldl_delete_defect_snd (ids : List String) (s : Store) :
    ids.foldl (fun t i => (delete_defect_info t i).2) s
      = { s with defects := ids.foldl (deleteBy DefectInfoTable.id) s.defects } := by
  induction ids generalizing s with
  | nil => rfl
  | cons i ids ih =>
    rw [List.foldl_cons, List.foldl_cons, delete_defect_info_snd, ih]

theorem foldl_delete_repaird_snd (ids : List String) (s : Store) :
    ids.foldl (fun t i => (delete_repaird_info t i).2) s
      = { s with repairs := ids.foldl (deleteBy RepairdInfoTable.id) s.repairs } := by
  induction ids generalizing s with
  | nil => rfl
  | cons i ids ih =>
    rw [List.foldl_cons, List.foldl_cons, delete_repaird_info_snd, ih]

theorem merge_target_database_eq (now : String) (S T : Store) (dd dr : List String) :
    merge_target_database now S T dd dr
      = { tablesCreated := true,
          defects := dd.foldl (deleteBy DefectInfoTable.id)
            ((S.defects.map (fun r => schema_to_db_model_defect (db_model_to_schema_defect now r))).foldl
              (upsertBy DefectInfoTable.id) T.defects),
          repairs := dr.foldl (deleteBy RepairdInfoTable.id)
            ((S.repairs.map (fun r => schema_to_db_model_repaird (db_model_to_schema_repaird now r))).foldl
              (upsertBy RepairdInfoTable.id) T.repairs) } := by
  unfold merge_target_database merge_target_database_run
  simp only [SourceFailure.none, Bool.false_eq_true, if_false]
  rw [foldl_delete_defect_snd, foldl_delete_repaird_snd]
  unfold merge_repaird_info_batch merge_insert_defect_infos get_all_defect_info
    get_all_repaird_info create_tables
  simp only [List.foldl_map]

theorem source_defects_map_id (now : String) (S : Store)
    (hSwf : ∀ r ∈ S.defects, r.id ≠ "" ∧ r.insert_datetime ≠ "") :
    S.defects.map (fun r => schema_to_db_model_defect (db_model_to_schema_defect now r))
      = S.defects := by
  have : S.defects.map (fun r => schema_to_db_model_defect (db_model_to_schema_defect now r))
      = S.defects.map id :=
    List.map_congr_left (fun r hr => roundtrip_defect now r (hSwf r hr).1 (hSwf r hr).2)
  rw [this, List.map_id]

theorem source_repairs_map_id (now : String) (S : Store)
    (hSwf : ∀ r ∈ S.repairs, r.insert_datetime ≠ "") :
    S.repairs.map (fun r => schema_to_db_model_repaird (db_model_to_schema_repaird now r))
      = S.repairs := by
  have : S.repairs.map (fun r => schema_to_db_model_repaird (db_model_to_schema_repaird now r))
      = S.repairs.map id :=
    List.map_congr_left (fun r hr => roundtrip_repaird now r (hSwf r hr))
  rw [this, List.map_id]

theorem merge_lookup_defect (now : String) (S T : Store) (dd dr : List String)
    (hSwf : ∀ r ∈ S.defects, r.id ≠ "" ∧ r.insert_datetime ≠ "")
    (hSnd : (S.defects.map DefectInfoTable.id).Nodup)
    (hTnd : (T.defects.map DefectInfoTable.id).Nodup) (j : String) :
    lookupBy DefectInfoTable.id (merge_target_database now S T dd dr).defects j
      = if j ∈ dd then Option.none
        else (lookupBy DefectInfoTable.id S.defects j).or
          (lookupBy DefectInfoTable.id T.defects j) := by
  rw [merge_target_database_eq, source_defects_map_id now S hSwf]
  show lookupBy DefectInfoTable.id
      (dd.foldl (deleteBy DefectInfoTable.id)
        (S.defects.foldl (upsertBy DefectInfoTable.id) T.defects)) j = _
  rw [lookupBy_foldl_deleteBy DefectInfoTable.id dd _ j
    (nodup_foldl_upsertBy DefectInfoTable.id S.defects T.defects hTnd)]
  by_cases hj : j ∈ dd
  · simp [hj]
  · simp only [hj, if_false]
    cases hS : lookupBy DefectInfoTable.id S.defects j with
    | some r =>
      obtain ⟨hmem, hkey⟩ := lookupBy_mem_key DefectInfoTable.id S.defects j r hS
      rw [← hkey,
        lookupBy_foldl_upsertBy_mem DefectInfoTable.id S.defects T.defects r hmem hSnd]
      rfl
    | none =>
      rw [lookupBy_foldl_upsertBy_not_mem DefectInfoTable.id S.defects T.defects j ?hall]
      · rw [Option.none_or]
      case hall =>
        rw [lookupBy_eq_none_iff] at hS
        exact fun r hr => hS r hr

theorem merge_lookup_repaird (now : String) (S T : Store) (dd dr : List String)
    (hSwf : ∀ r ∈ S.repairs, r.insert_datetime ≠ "")
    (hSnd : (S.repairs.map RepairdInfoTable.id).Nodup)
    (hTnd : (T.repairs.map RepairdInfoTable.id).Nodup) (j : String) :
    lookupBy RepairdInfoTable.id (merge_target_database now S T dd dr).repairs j
      = if j ∈ dr then Option.none
        else (lookupBy RepairdInfoTable.id S.repairs j).or
          (lookupBy RepairdInfoTable.id T.repairs j) := by
  rw [merge_target_database_eq, source_repairs_map_id now S hSwf]
  show lookupBy RepairdInfoTable.id
      (dr.foldl (deleteBy RepairdInfoTable.id)
        (S.repairs.foldl (upsertBy RepairdInfoTable.id) T.repairs)) j = _
  rw [lookupBy_foldl_deleteBy RepairdInfoTable.id dr _ j
    (nodup_foldl_upsertBy RepairdInfoTable.id S.repairs T.repairs hTnd)]
  by_cases hj : j ∈ dr
  · simp [hj]
  · simp only [hj, if_false]
    cases hS : lookupBy RepairdInfoTable.id S.repairs j with
    | some r =>
      obtain ⟨hmem, hkey⟩ := lookupBy_mem_key RepairdInfoTable.id S.repairs j r hS
      rw [← hkey,
        lookupBy_foldl_upsertBy_mem RepairdInfoTable.id S.repairs T.repairs r hmem hSnd]
      rfl
    | none =>
      rw [lookupBy_foldl_upsertBy_not_mem RepairdInfoTable.id S.repairs T.repairs j ?hall]
      · rw [Option.none_or]
      case hall =>
        rw [lookupBy_eq_none_iff] at hS
        exact fun r hr => hS r hr

/-! ### Claim C1: merge correctness -/

/-- C1: after merge(S, T, dd, dr), every defect row of S whose identity is
not in dd is present in T with exactly the source row values; every
identity in dd is absent from the defect table of T; the same holds for
repair rows with respect to dr; and defect rows of T whose identities occur
neither in S nor in dd are unchanged (the analogous frame property holds
for repair rows).  The Nodup hypotheses state the primary key constraint
of the two stores, and the non-empty id and insert_datetime hypotheses are
the invariants that every row written through the schema layer satisfies. -/
theorem claim_C1_merge_correctness (now : String) (S T : Store) (dd dr : List String)
    (hSdwf : ∀ r ∈ S.defects, r.id ≠ "" ∧ r.insert_datetime ≠ "")
    (hSrwf : ∀ r ∈ S.repairs, r.insert_datetime ≠ "")
    (hSdnd : (S.defects.map DefectInfoTable.id).Nodup)
    (hSrnd : (S.repairs.map RepairdInfoTable.id).Nodup)
    (hTdnd : (T.defects.map DefectInfoTable.id).Nodup)
    (hTrnd : (T.repairs.map RepairdInfoTable.id).Nodup) :
    (∀ r ∈ S.defects, r.id ∉ dd →
      lookupBy DefectInfoTable.id (merge_target_database now S T dd dr).defects r.id
        = some r)
    ∧ (∀ i ∈ dd,
      lookupBy DefectInfoTable.id (merge_target_database now S T dd dr).defects i
        = Option.none)
    ∧ (∀ r ∈ S.repairs, r.id ∉ dr →
      lookupBy RepairdInfoTable.id (merge_target_database now S T dd dr).repairs r.id
        = some r)
    ∧ (∀ i ∈ dr,
      lookupBy RepairdInfoTable.id (merge_target_database now S T dd dr).repairs i
        = Option.none)
    ∧ (∀ r ∈ T.defects, r.id ∉ S.defects.map DefectInfoTable.id → r.id ∉ dd →
      lookupBy DefectInfoTable.id (merge_target_database now S T dd dr).defects r.id
        = some r)
    ∧ (∀ r ∈ T.repairs, r.id ∉ S.repairs.map RepairdInfoTable.id → r.id ∉ dr →
      lookupBy RepairdInfoTable.id (merge_target_database now S T dd dr).repairs r.id
        = some r) := by
  refine ⟨?_, ?_, ?_, ?_, ?_, ?_⟩
  · intro r hr hdd
    rw [merge_lookup_defect now S T dd dr hSdwf hSdnd hTdnd r.id, if_neg hdd,
      lookupBy_eq_some_of_mem DefectInfoTable.id S.defects r hr hSdnd]
    rfl
  · intro i hi
    rw [merge_lookup_defect now S T dd dr hSdwf hSdnd hTdnd i, if_pos hi]
  · intro r hr hdr
    rw [merge_lookup_repaird now S T dd dr hSrwf hSrnd hTrnd r.id, if_neg hdr,
      lookupBy_eq_some_of_mem RepairdInfoTable.id S.repairs r hr hSrnd]
    rfl
  · intro i hi
    rw [merge_lookup_repaird now S T dd dr hSrwf hSrnd hTrnd i, if_pos hi]
  · intro r hr hS hdd
    have hSn : lookupBy DefectInfoTable.id S.defects r.id = Option.none := by
      rw [lookupBy_eq_none_iff]
      intro x hx hcon
      exact hS (hcon ▸ List.mem_map_of_mem DefectInfoTable.id hx)
    rw [merge_lookup_defect now S T dd dr hSdwf hSdnd hTdnd r.id, if_neg hdd, hSn,
      Option.none_or]
    exact lookupBy_eq_some_of_mem DefectInfoTable.id T.defects r hr hTdnd
  · intro r hr hS hdr
    have hSn : lookupBy RepairdInfoTable.id S.repairs r.id = Option.none := by
      rw [lookupBy_eq_none_iff]
      intro x hx hcon
      exact hS (hcon ▸ List.mem_map_of_mem RepairdInfoTable.id hx)
    rw [merge_lookup_repaird now S T dd dr hSrwf hSrnd hTrnd r.id, if_neg hdr, hSn,
      Option.none_or]
    exact lookupBy_eq_some_of_mem RepairdInfoTable.id T.repairs r hr hTrnd

/-- Witness for C1 on concrete stores: source has defects a, b and repair
a; target has defects b, c and repair c; merging with defect deletions [b]
and repair deletions [c] gives a target containing defect a with the source
values, no defect b, the untouched defect c, repair a, and no repair c. -/
theorem claim_C1_merge_correctness_witness :
    (lookupBy DefectInfoTable.id
        (merge_target_database "2024-02-02"
          ⟨true, [mkDefectRow "a" "L1", mkDefectRow "b" "L1"], [mkRepairdRow "a"]⟩
          ⟨true, [mkDefectRow "b" "L2", mkDefectRow "c" "L3"], [mkRepairdRow "c"]⟩
          ["b"] ["c"]).defects (mkDefectRow "a" "L1").id
      = some (mkDefectRow "a" "L1"))
    ∧ (lookupBy DefectInfoTable.id
        (merge_target_database "2024-02-02"
          ⟨true, [mkDefectRow "a" "L1", mkDefectRow "b" "L1"], [mkRepairdRow "a"]⟩
          ⟨true, [mkDefectRow "b" "L2", mkDefectRow "c" "L3"], [mkRepairdRow "c"]⟩
          ["b"] ["c"]).defects "b"
      = Option.none)
    ∧ (lookupBy RepairdInfoTable.id
        (merge_target_database "2024-02-02"
          ⟨true, [mkDefectRow "a" "L1", mkDefectRow "b" "L1"], [mkRepairdRow "a"]⟩
          ⟨true, [mkDefectRow "b" "L2", mkDefectRow "c" "L3"], [mkRepairdRow "c"]⟩
          ["b"] ["c"]).repairs (mkRepairdRow "a").id
      = some (mkRepairdRow "a"))
    ∧ (lookupBy RepairdInfoTable.id
        (merge_target_database "2024-02-02"
          ⟨true, [mkDefectRow "a" "L1", mkDefectRow "b" "L1"], [mkRepairdRow "a"]⟩
          ⟨true, [mkDefectRow "b" "L2", mkDefectRow "c" "L3"], [mkRepairdRow "c"]⟩
          ["b"] ["c"]).repairs "c"
      = Option.none)
    ∧ (lookupBy DefectInfoTable.id
        (merge_target_database "2024-02-02"
          ⟨true, [mkDefectRow "a" "L1", mkDefectRow "b" "L1"], [mkRepairdRow "a"]⟩
          ⟨true, [mkDefectRow "b" "L2", mkDefectRow "c" "L3"], [mkRepairdRow "c"]⟩
          ["b"] ["c"]).defects (mkDefectRow "c" "L3").id
      = some (mkDefectRow "c" "L3")) := by
  have h := claim_C1_merge_correctness "2024-02-02"
    ⟨true, [mkDefectRow "a" "L1", mkDefectRow "b" "L1"], [mkRepairdRow "a"]⟩
    ⟨true, [mkDefectRow "b" "L2", mkDefectRow "c" "L3"], [mkRepairdRow "c"]⟩
    ["b"] ["c"]
    (by decide) (by decide) (by decide) (by decide) (by decide) (by decide)
  refine ⟨?_, ?_, ?_, ?_, ?_⟩
  · exact h.1 (mkDefectRow "a" "L1") (by decide) (by decide)
  · exact h.2.1 "b" (by decide)
  · exact h.2.2.1 (mkRepairdRow "a") (by decide) (by decide)
  · exact h.2.2.2.1 "c" (by decide)
  · exact h.2.2.2.2.1 (mkDefectRow "c" "L3") (by decide) (by decide) (by decide)

/-! ### Lemma: re-merging a table that already reflects the source is the
identity -/

theorem remerge_eq_self {α : Type} (key : α → String) (tS t1 : List α)
    (ids : List String)
    (hSnd : (tS.map key).Nodup) (hT1nd : (t1.map key).Nodup)
    (hin : ∀ r ∈ tS, key r ∈ ids → lookupBy key t1 (key r) = Option.none)
    (hout : ∀ r ∈ tS, key r ∉ ids → lookupBy key t1 (key r) = some r)
    (hids : ∀ i ∈ ids, lookupBy key t1 i = Option.none) :
    ids.foldl (deleteBy key) (tS.foldl (upsertBy key) t1) = t1 := by
  have hsplit : ∀ r ∈ tS,
      lookupBy key t1 (key r) = some r ∨ lookupBy key t1 (key r) = Option.none := by
    intro r hr
    by_cases h : key r ∈ ids
    · exact Or.inr (hin r hr h)
    · exact Or.inl (hout r hr h)
  have hfold := foldl_upsertBy_of_split key t1 hT1nd tS [] hSnd (by simp) hsplit
    (by simp) (by simp)
  rw [List.append_nil] at hfold
  rw [hfold]
  have hDsub : (tS.filter (fun r => (lookupBy key t1 (key r)).isNone)).Sublist tS :=
    List.filter_sublist tS
  have hnd_app : ((t1 ++ tS.filter (fun r => (lookupBy key t1 (key r)).isNone)).map key).Nodup := by
    rw [List.map_append, List.nodup_append]
    refine ⟨hT1nd, (hDsub.map key).nodup hSnd, ?_⟩
    intro j hj1 hj2
    rw [List.mem_map] at hj1 hj2
    obtain ⟨x, hx, hkx⟩ := hj1
    obtain ⟨e, he, hke⟩ := hj2
    have hnone : (lookupBy key t1 (key e)).isNone = true := (List.mem_filter.mp he).2
    cases hlk : lookupBy key t1 (key e) with
    | some w => rw [hlk] at hnone; cases hnone
    | none =>
      rw [lookupBy_eq_none_iff] at hlk
      exact hlk x hx (by rw [hkx, hke])
  rw [foldl_deleteBy_eq_filter key ids _ hnd_app, List.filter_append]
  have h1 : t1.filter (fun x => decide (key x ∉ ids)) = t1 := by
    rw [List.filter_eq_self]
    intro x hx
    simp only [decide_eq_true_eq]
    intro hcon
    have hn := hids (key x) hcon
    rw [lookupBy_eq_none_iff] at hn
    exact hn x hx rfl
  have h2 : (tS.filter (fun r => (lookupBy key t1 (key r)).isNone)).filter
      (fun x => decide (key x ∉ ids)) = [] := by
    rw [List.filter_eq_nil_iff]
    intro x hx
    have hxS : x ∈ tS := (List.mem_filter.mp hx).1
    have hxf : (lookupBy key t1 (key x)).isNone = true := (List.mem_filter.mp hx).2
    simp only [decide_eq_true_eq, not_not]
    by_cases h : key x ∈ ids
    · simp [h]
    · rw [hout x hxS h] at hxf
      cases hxf
  rw [h1, h2, List.append_nil]

/-! ### Claim C3: merge idempotence -/

/-- C3: running the merge a second time with the source unchanged (and any
clock) leaves the target in exactly the state produced by the first call —
literally the same store, hence the same row identities with no duplicates
and the same field values — and the second run raises no error. -/
theorem claim_C3_merge_idempotent (now1 now2 : String) (S T : Store)
    (dd dr : List String)
    (hSdwf : ∀ r ∈ S.defects, r.id ≠ "" ∧ r.insert_datetime ≠ "")
    (hSrwf : ∀ r ∈ S.repairs, r.insert_datetime ≠ "")
    (hSdnd : (S.defects.map DefectInfoTable.id).Nodup)
    (hSrnd : (S.repairs.map RepairdInfoTable.id).Nodup)
    (hTdnd : (T.defects.map DefectInfoTable.id).Nodup)
    (hTrnd : (T.repairs.map RepairdInfoTable.id).Nodup) :
    merge_target_database now2 S (merge_target_database now1 S T dd dr) dd dr
      = merge_target_database now1 S T dd dr
    ∧ (merge_target_database_run now2 S (merge_target_database now1 S T dd dr)
        dd dr SourceFailure.none).1 = Except.ok () := by
  refine ⟨?_, rfl⟩
  set T1 := merge_target_database now1 S T dd dr with hT1
  have hT1d : T1.defects
      = dd.foldl (deleteBy DefectInfoTable.id)
        (S.defects.foldl (upsertBy DefectInfoTable.id) T.defects) := by
    rw [hT1, merge_target_database_eq now1 S T dd dr, source_defects_map_id now1 S hSdwf]
  have hT1r : T1.repairs
      = dr.foldl (deleteBy RepairdInfoTable.id)
        (S.repairs.foldl (upsertBy RepairdInfoTable.id) T.repairs) := by
    rw [hT1, merge_target_database_eq now1 S T dd dr, source_repairs_map_id now1 S hSrwf]
  have htc : T1.tablesCreated = true := by
    rw [hT1, merge_target_database_eq now1 S T dd dr]
  have hT1dnd : (T1.defects.map DefectInfoTable.id).Nodup := by
    rw [hT1d]
    exact nodup_foldl_deleteBy DefectInfoTable.id dd _
      (nodup_foldl_upsertBy DefectInfoTable.id S.defects T.defects hTdnd)
  have hT1rnd : (T1.repairs.map RepairdInfoTable.id).Nodup := by
    rw [hT1r]
    exact nodup_foldl_deleteBy RepairdInfoTable.id dr _
      (nodup_foldl_upsertBy RepairdInfoTable.id S.repairs T.repairs hTrnd)
  have hlkd := merge_lookup_defect now1 S T dd dr hSdwf hSdnd hTdnd
  have hlkr := merge_lookup_repaird now1 S T dd dr hSrwf hSrnd hTrnd
  rw [← hT1] at hlkd hlkr
  have hdef : dd.foldl (deleteBy DefectInfoTable.id)
      (S.defects.foldl (upsertBy DefectInfoTable.id) T1.defects) = T1.defects := by
    apply remerge_eq_self DefectInfoTable.id S.defects T1.defects dd hSdnd hT1dnd
    · intro r hr hmem
      rw [hlkd r.id, if_pos hmem]
    · intro r hr hmem
      rw [hlkd r.id, if_neg hmem,
        lookupBy_eq_some_of_mem DefectInfoTable.id S.defects r hr hSdnd]
      rfl
    · intro i hi
      rw [hlkd i, if_pos hi]
  have hrep : dr.foldl (deleteBy RepairdInfoTable.id)
      (S.repairs.foldl (upsertBy RepairdInfoTable.id) T1.repairs) = T1.repairs := by
    apply remerge_eq_self RepairdInfoTable.id S.repairs T1.repairs dr hSrnd hT1rnd
    · intro r hr hmem
      rw [hlkr r.id, if_pos hmem]
    · intro r hr hmem
      rw [hlkr r.id, if_neg hmem,
        lookupBy_eq_some_of_mem RepairdInfoTable.id S.repairs r hr hSrnd]
      rfl
    · intro i hi
      rw [hlkr i, if_pos hi]
  rw [merge_target_database_eq now2 S T1 dd dr, source_defects_map_id now2 S hSdwf,
    source_repairs_map_id now2 S hSrwf, hdef, hrep, ← htc]

/-- Witness for C3 on the concrete stores of the C1 witness. -/
theorem claim_C3_merge_idempotent_witness :
    merge_target_database "2024-03-03"
      ⟨true, [mkDefectRow "a" "L1", mkDefectRow "b" "L1"], [mkRepairdRow "a"]⟩
      (merge_target_database "2024-02-02"
        ⟨true, [mkDefectRow "a" "L1", mkDefectRow "b" "L1"], [mkRepairdRow "a"]⟩
        ⟨true, [mkDefectRow "b" "L2", mkDefectRow "c" "L3"], [mkRepairdRow "c"]⟩
        ["b"] ["c"])
      ["b"] ["c"]
      = merge_target_database "2024-02-02"
        ⟨true, [mkDefectRow "a" "L1", mkDefectRow "b" "L1"], [mkRepairdRow "a"]⟩
        ⟨true, [mkDefectRow "b" "L2", mkDefectRow "c" "L3"], [mkRepairdRow "c"]⟩
        ["b"] ["c"] :=
  (claim_C3_merge_idempotent "2024-02-02" "2024-03-03"
    ⟨true, [mkDefectRow "a" "L1", mkDefectRow "b" "L1"], [mkRepairdRow "a"]⟩
    ⟨true, [mkDefectRow "b" "L2", mkDefectRow "c" "L3"], [mkRepairdRow "c"]⟩
    ["b"] ["c"]
    (by decide) (by decide) (by decide) (by decide) (by decide) (by decide)).1

/-! ### Claim C4: source failure semantics (corrected)

The claim states that a source that cannot be opened OR READ leaves the
target exactly unmodified.  The method body runs source create_tables
first (so an unopenable source does fail before any target access), but it
creates the target tables before the first source read: a source that opens
and then fails at the defect read leaves the target with freshly created
tables, contradicting the claim for a target whose tables did not exist. -/

/-- C4 counterexample: with an empty target whose tables do not exist and a
source that opens but fails at the defect read, the merge raises the
storage error, yet the target has been modified (its tables now exist). -/
theorem claim_C4_read_failure_counterexample :
    (merge_target_database_run "2024-01-01" Store.empty Store.empty [] []
        { createTablesFails := false, readDefectsFails := true,
          readRepairsFails := false }).1
      = Except.error DbError.storageError
    ∧ (merge_target_database_run "2024-01-01" Store.empty Store.empty [] []
        { createTablesFails := false, readDefectsFails := true,
          readRepairsFails := false }).2
      ≠ Store.empty := by
  refine ⟨rfl, ?_⟩
  intro hcon
  have := congrArg Store.tablesCreated hcon
  simp [merge_target_database_run, create_tables, Store.empty] at this

/-- C4 amended: if the source cannot be opened (its very first access, the
source create_tables call, fails) the merge raises the underlying error
before touching the target, whose state — including whether its tables
exist — is exactly what it was; if instead the source opens but its defect
read fails, the target is left exactly as the target after create_tables
(tables created, no row touched). -/
theorem claim_C4_source_open_failure_amended (now : String) (S T : Store)
    (dd dr : List String) (f : SourceFailure) :
    (f.createTablesFails = true →
      merge_target_database_run now S T dd dr f
        = (Except.error DbError.storageError, T))
    ∧ (f.createTablesFails = false → f.readDefectsFails = true →
      merge_target_database_run now S T dd dr f
        = (Except.error DbError.storageError, create_tables T)) := by
  constructor
  · intro h
    unfold merge_target_database_run
    simp [h]
  · intro h1 h2
    unfold merge_target_database_run
    simp [h1, h2]

/-- Witness for the amended C4 at concrete inputs. -/
theorem claim_C4_source_open_failure_amended_witness :
    merge_target_database_run "2024-01-01" Store.empty Store.empty [] []
        { createTablesFails := true, readDefectsFails := false,
          readRepairsFails := false }
      = (Except.error DbError.storageError, Store.empty)
    ∧ merge_target_database_run "2024-01-01" Store.empty Store.empty [] []
        { createTablesFails := false, readDefectsFails := true,
          readRepairsFails := false }
      = (Except.error DbError.storageError, create_tables Store.empty) :=
  ⟨(claim_C4_source_open_failure_amended "2024-01-01" Store.empty Store.empty [] []
      ⟨true, false, false⟩).1 rfl,
   (claim_C4_source_open_failure_amended "2024-01-01" Store.empty Store.empty [] []
      ⟨false, true, false⟩).2 rfl rfl⟩

/-! ### Claim C5: strict insert -/

theorem filter_cons_pos {α : Type} (p : α → Bool) (a : α) (l : List α)
    (h : p a = true) : List.filter p (a :: l) = a :: List.filter p l :=
  List.filter_cons_of_pos h

theorem filter_cons_neg {α : Type} (p : α → Bool) (a : α) (l : List α)
    (h : ¬ p a = true) : List.filter p (a :: l) = List.filter p l :=
  List.filter_cons_of_neg h

theorem filter_key_eq_singleton {α : Type} (key : α → String) (t : List α)
    (i : String) (r : α) (hnd : (t.map key).Nodup)
    (h : lookupBy key t i = some r) :
    t.filter (fun x => key x == i) = [r] := by
  induction t with
  | nil => cases h
  | cons a t ih =>
    rw [List.map_cons, List.nodup_cons] at hnd
    by_cases pa : (key a == i) = true
    · have ha : lookupBy key (a :: t) i = some a :=
        find?_cons_pos (fun x => key x == i) a t pa
      rw [h] at ha
      injection ha with ha
      subst ha
      rw [filter_cons_pos (fun x => key x == i) r t pa]
      have : t.filter (fun x => key x == i) = [] := by
        rw [List.filter_eq_nil_iff]
        intro x hx hcon
        have hk : key x = i := by simpa using hcon
        have hk2 : key r = i := by simpa using pa
        exact hnd.1 ((hk2.trans hk.symm) ▸ List.mem_map_of_mem key hx)
      rw [this]
    · have ha : lookupBy key (a :: t) i = lookupBy key t i :=
        find?_cons_neg (fun x => key x == i) a t pa
      rw [h] at ha
      rw [filter_cons_neg (fun x => key x == i) a t pa]
      exact ih hnd.2 ha.symm

/-- C5: strict single insert.  If a row with the identity of the record
already exists, the insert raises the constraint violation and the store is
unchanged, so its defect table still holds exactly one row with that
identity, carrying the original values; if no such row exists, the insert
appends exactly the new row and touches nothing else. -/
theorem claim_C5_strict_insert (s : Store) (info : DefectInfo)
    (hnd : (s.defects.map DefectInfoTable.id).Nodup) :
    (∀ r0, lookupBy DefectInfoTable.id s.defects info.id = some r0 →
      (insert_defect_info s info).1 = Except.error DbError.constraintViolation
      ∧ (insert_defect_info s info).2 = s
      ∧ (insert_defect_info s info).2.defects.filter (fun x => x.id == info.id)
          = [r0])
    ∧ (lookupBy DefectInfoTable.id s.defects info.id = Option.none →
      (insert_defect_info s info).1 = Except.ok ()
      ∧ (insert_defect_info s info).2.defects
          = s.defects ++ [schema_to_db_model_defect info]
      ∧ (insert_defect_info s info).2.repairs = s.repairs) := by
  constructor
  · intro r0 h
    obtain ⟨hmem, hkey⟩ := lookupBy_mem_key DefectInfoTable.id s.defects info.id r0 h
    have hany : (s.defects.any fun x => x.id == (schema_to_db_model_defect info).id)
        = true := by
      refine List.any_eq_true.mpr ⟨r0, hmem, ?_⟩
      show (r0.id == info.id) = true
      simp [hkey]
    have hgoal : insert_defect_info s info
        = (Except.error DbError.constraintViolation, s) := by
      unfold insert_defect_info
      simp [hany]
    rw [hgoal]
    exact ⟨rfl, rfl, filter_key_eq_singleton DefectInfoTable.id s.defects info.id r0 hnd h⟩
  · intro h
    rw [lookupBy_eq_none_iff] at h
    have hany : (s.defects.any fun x => x.id == (schema_to_db_model_defect info).id)
        = false := by
      rw [Bool.eq_false_iff]
      intro hcon
      obtain ⟨x, hx, hkx⟩ := List.any_eq_true.mp hcon
      exact h x hx (by simpa using hkx)
    have hgoal : insert_defect_info s info
        = (Except.ok (), { s with defects := s.defects ++ [schema_to_db_model_defect info] }) := by
      unfold insert_defect_info
      simp [hany]
    rw [hgoal]
    exact ⟨rfl, rfl, rfl⟩

/-- Witness for C5: inserting a record whose identity a is already present
fails with the constraint violation and leaves the single original row;
inserting a fresh identity b appends exactly that row. -/
theorem claim_C5_strict_insert_witness :
    ((insert_defect_info ⟨true, [mkDefectRow "a" "L1"], []⟩ (mkDefectSchema "a" "LX")).1
      = Except.error DbError.constraintViolation
    ∧ (insert_defect_info ⟨true, [mkDefectRow "a" "L1"], []⟩ (mkDefectSchema "a" "LX")).2
      = ⟨true, [mkDefectRow "a" "L1"], []⟩
    ∧ (insert_defect_info ⟨true, [mkDefectRow "a" "L1"], []⟩
        (mkDefectSchema "a" "LX")).2.defects.filter
          (fun x => x.id == (mkDefectSchema "a" "LX").id)
      = [mkDefectRow "a" "L1"])
    ∧ ((insert_defect_info ⟨true, [mkDefectRow "a" "L1"], []⟩ (mkDefectSchema "b" "L1")).1
      = Except.ok ()) := by
  have h := claim_C5_strict_insert ⟨true, [mkDefectRow "a" "L1"], []⟩
    (mkDefectSchema "a" "LX") (by decide)
  have h2 := claim_C5_strict_insert ⟨true, [mkDefectRow "a" "L1"], []⟩
    (mkDefectSchema "b" "L1") (by decide)
  exact ⟨h.1 (mkDefectRow "a" "L1") (by decide), (h2.2 (by decide)).1⟩

/-! ### Claim C6: batch insert atomicity -/

theorem insertAllStrictBy_some {α : Type} (key : α → String) :
    ∀ (rs t u : List α), insertAllStrictBy key t rs = some u → u = t ++ rs := by
  intro rs
  induction rs with
  | nil =>
    intro t u h
    unfold insertAllStrictBy at h
    injection h with h
    rw [← h, List.append_nil]
  | cons r rest ih =>
    intro t u h
    unfold insertAllStrictBy at h
    by_cases hany : (t.any fun x => key x == key r) = true
    · rw [if_pos hany] at h
      cases h
    · rw [if_neg hany] at h
      have := ih (t ++ [r]) u h
      rw [this, List.append_assoc]
      rfl

theorem insertAllStrictBy_conflict {α : Type} (key : α → String) :
    ∀ (rs t : List α), (∃ r ∈ rs, ∃ x ∈ t, key x = key r) →
      insertAllStrictBy key t rs = Option.none := by
  intro rs
  induction rs with
  | nil =>
    intro t h
    obtain ⟨r, hr, -⟩ := h
    cases hr
  | cons r rest ih =>
    intro t h
    unfold insertAllStrictBy
    by_cases hany : (t.any fun x => key x == key r) = true
    · rw [if_pos hany]
    · rw [if_neg hany]
      obtain ⟨r0, hr0, x, hx, hk⟩ := h
      rcases List.mem_cons.mp hr0 with rfl | hr0rest
      · exact absurd (List.any_eq_true.mpr ⟨x, hx, by simp [hk]⟩) hany
      · exact ih (t ++ [r]) ⟨r0, hr0rest, x, List.mem_append_left [r] hx, hk⟩

/-- C6: the strict batch insert is atomic: on success the store gains
exactly the rows of the batch, in order, and nothing else changes; on any
failure (in particular when some batch record collides with an identity
already in the table) it raises the constraint violation and the store is
exactly as before — no proper subset of the batch is ever committed. -/
theorem claim_C6_batch_insert_atomic (s : Store) (infos : List DefectInfo) :
    ((insert_defect_infos s infos).1 = Except.ok () →
      (insert_defect_infos s infos).2.defects
          = s.defects ++ infos.map schema_to_db_model_defect
      ∧ (insert_defect_infos s infos).2.repairs = s.repairs
      ∧ (insert_defect_infos s infos).2.tablesCreated = s.tablesCreated)
    ∧ ((insert_defect_infos s infos).1 ≠ Except.ok () →
      (insert_defect_infos s infos).1 = Except.error DbError.constraintViolation
      ∧ (insert_defect_infos s infos).2 = s)
    ∧ ((∃ info ∈ infos, ∃ x ∈ s.defects, x.id = (schema_to_db_model_defect info).id) →
      (insert_defect_infos s infos).1 = Except.error DbError.constraintViolation
      ∧ (insert_defect_infos s infos).2 = s) := by
  unfold insert_defect_infos
  cases h : insertAllStrictBy DefectInfoTable.id s.defects
      (infos.map schema_to_db_model_defect) with
  | some t =>
    have ht := insertAllStrictBy_some DefectInfoTable.id
      (infos.map schema_to_db_model_defect) s.defects t h
    refine ⟨fun _ => ⟨ht, rfl, rfl⟩, fun hcon => absurd rfl hcon, fun hex => ?_⟩
    obtain ⟨info, hinfo, x, hx, hk⟩ := hex
    have : insertAllStrictBy DefectInfoTable.id s.defects
        (infos.map schema_to_db_model_defect) = Option.none :=
      insertAllStrictBy_conflict DefectInfoTable.id _ s.defects
        ⟨schema_to_db_model_defect info, List.mem_map_of_mem _ hinfo, x, hx, hk⟩
    rw [h] at this
    cases this
  | none =>
    exact ⟨fun hcon => absurd hcon.symm (by simp),
      fun _ => ⟨rfl, rfl⟩, fun _ => ⟨rfl, rfl⟩⟩

/-- Witness for C6: a batch whose second record collides with an existing
identity fails as a whole, leaving the store unchanged (the fresh first
record is not committed either); the same batch into an empty store
succeeds and appends both rows. -/
theorem claim_C6_batch_insert_atomic_witness :
    ((insert_defect_infos ⟨true, [mkDefectRow "a" "L1"], []⟩
        [mkDefectSchema "b" "L1", mkDefectSchema "a" "LX"]).1
      = Except.error DbError.constraintViolation
    ∧ (insert_defect_infos ⟨true, [mkDefectRow "a" "L1"], []⟩
        [mkDefectSchema "b" "L1", mkDefectSchema "a" "LX"]).2
      = ⟨true, [mkDefectRow "a" "L1"], []⟩)
    ∧ (insert_defect_infos ⟨true, [], []⟩
        [mkDefectSchema "b" "L1", mkDefectSchema "a" "LX"]).2.defects
      = [] ++ [mkDefectSchema "b" "L1", mkDefectSchema "a" "LX"].map
          schema_to_db_model_defect := by
  have h := claim_C6_batch_insert_atomic ⟨true, [mkDefectRow "a" "L1"], []⟩
    [mkDefectSchema "b" "L1", mkDefectSchema "a" "LX"]
  have h2 := claim_C6_batch_insert_atomic ⟨true, [], []⟩
    [mkDefectSchema "b" "L1", mkDefectSchema "a" "LX"]
  exact ⟨h.2.2 (by decide), (h2.1 rfl).1⟩

/-! ### Claim C7: handle lifecycle -/

/-- C7: on a closed handle every public data operation raises precisely the
distinct handle-closed error and performs no storage access (handle and
store unchanged); no operation ever changes the closed flag, so nothing
reopens a closed handle; close is idempotent (a second close is a no-op)
and, being a total function of the model, never raises. -/
theorem claim_C7_handle_lifecycle (now : String) (h : Handle) (op : DbOp) :
    (h.closed = true → runOp now h op = (Except.error DbError.handleClosed, h))
    ∧ (runOp now h op).2.closed = h.closed
    ∧ Handle.close (Handle.close h) = Handle.close h
    ∧ (Handle.close h).closed = true := by
  refine ⟨?_, ?_, ?_, ?_⟩
  · intro hc
    unfold runOp
    rw [if_pos hc]
  · by_cases hc : h.closed = true
    · unfold runOp
      rw [if_pos hc]
    · unfold runOp
      rw [if_neg hc]
      cases op <;> rfl
  · unfold Handle.close
    by_cases hc : h.closed = true
    · simp [hc]
    · simp [hc]
  · unfold Handle.close
    by_cases hc : h.closed = true
    · simp [hc]
    · simp [hc]

/-- Witness for C7: a closed handle rejects a read and a write with the
handle-closed error and keeps its state; close of a closed handle is a
no-op. -/
theorem claim_C7_handle_lifecycle_witness :
    runOp "2024-01-01" ⟨true, Store.empty⟩ DbOp.getAllDefect
      = (Except.error DbError.handleClosed, ⟨true, Store.empty⟩)
    ∧ runOp "2024-01-01" ⟨true, Store.empty⟩ (DbOp.insertDefect (mkDefectSchema "a" "L1"))
      = (Except.error DbError.handleClosed, ⟨true, Store.empty⟩)
    ∧ Handle.close (Handle.close ⟨false, Store.empty⟩)
      = Handle.close ⟨false, Store.empty⟩ :=
  ⟨(claim_C7_handle_lifecycle "2024-01-01" ⟨true, Store.empty⟩ DbOp.getAllDefect).1 rfl,
   (claim_C7_handle_lifecycle "2024-01-01" ⟨true, Store.empty⟩
      (DbOp.insertDefect (mkDefectSchema "a" "L1"))).1 rfl,
   (claim_C7_handle_lifecycle "2024-01-01" ⟨false, Store.empty⟩ DbOp.getAllDefect).2.2.1⟩

/-! ### Claim C8: board_number_label (corrected)

The claim states that board_number_label is computed at construction as
lot_number, an underscore, and the board index, and persisted verbatim as
a defect table column.  In the code the schema field merely defaults to the
empty string (the validator never writes it), the table model of
db_models.py has no such column, schema_to_db_model drops the field, and a
record read back therefore always carries the empty string.  The composite
label is computed only in the remote-API client when pushing records. -/

/-- C8 counterexample: a record constructed with lot LOT1 and board index 1
has an empty board_number_label, not LOT1_1; and an explicitly set label is
lost by the store round trip. -/
theorem claim_C8_board_number_label_counterexample :
    (DefectInfo.construct "2024-01-01"
        { lot_number := some "LOT1", current_board_index := some 1,
          defect_number := some 2 }).board_number_label
      ≠ "LOT1" ++ "_" ++ toString (1 : Int)
    ∧ (db_model_to_schema_defect "2024-01-01"
        (schema_to_db_model_defect
          { mkDefectSchema "a" "L1" with board_number_label := "B7" })).board_number_label
      ≠ ({ mkDefectSchema "a" "L1" with
            board_number_label := "B7" } : DefectInfo).board_number_label := by
  constructor
  · decide
  · decide

/-- C8 amended: board_number_label is an ordinary field whose value at
construction is the supplied value, defaulting to the empty string, never
derived from the lot and board index; it is not a column of the defect
table: converting a record for persistence discards it, and every record
read back from a table row has an empty board_number_label. -/
theorem claim_C8_board_number_label_amended :
    (∀ (now : String) (v : DefectValues),
      (DefectInfo.construct now v).board_number_label = v.board_number_label.getD "")
    ∧ (∀ (s : DefectInfo) (b : String),
      schema_to_db_model_defect { s with board_number_label := b }
        = schema_to_db_model_defect s)
    ∧ (∀ (now : String) (r : DefectInfoTable),
      (db_model_to_schema_defect now r).board_number_label = "") := by
  refine ⟨?_, ?_, ?_⟩
  · intro now v
    unfold DefectInfo.construct generate_id_and_datetime DefectInfo.ofValues
    by_cases h1 : pyFalsy v.id = true <;>
      by_cases h2 : pyFalsy v.insert_datetime = true <;>
        simp [h1, h2]
  · intro s b
    rfl
  · intro now r
    unfold db_model_to_schema_defect DefectInfo.construct generate_id_and_datetime
      DefectInfo.ofValues
    by_cases h1 : pyFalsy (some r.id) = true <;>
      by_cases h2 : pyFalsy (some r.insert_datetime) = true <;>
        simp [h1, h2]

/-! ### Claim C9: no cascade between the tables -/

/-- C9: in a store holding a defect row and a repair row sharing identity
X, deleting the defect row leaves the repair table untouched and the repair
record still retrievable by X, and deleting the repair row leaves the
defect table untouched and the defect record still retrievable by X; each
delete operation touches only its own table. -/
theorem claim_C9_no_cascade (now : String) (s : Store) (X : String)
    (d : DefectInfoTable) (r : RepairdInfoTable)
    (hd : lookupBy DefectInfoTable.id s.defects X = some d)
    (hr : lookupBy RepairdInfoTable.id s.repairs X = some r) :
    (delete_defect_info s X).2.repairs = s.repairs
    ∧ get_repaird_info_by_id now (delete_defect_info s X).2 X
        = some (db_model_to_schema_repaird now r)
    ∧ (delete_repaird_info s X).2.defects = s.defects
    ∧ get_defect_info_by_id now (delete_repaird_info s X).2 X
        = some (db_model_to_schema_defect now d) := by
  refine ⟨?_, ?_, ?_, ?_⟩
  · rw [delete_defect_info_snd]
  · unfold get_repaird_info_by_id
    rw [delete_defect_info_snd]
    show (lookupBy RepairdInfoTable.id s.repairs X).map _ = _
    rw [hr]
    rfl
  · rw [delete_repaird_info_snd]
  · unfold get_defect_info_by_id
    rw [delete_repaird_info_snd]
    show (lookupBy DefectInfoTable.id s.defects X).map _ = _
    rw [hd]
    rfl

/-- Witness for C9 on a concrete store holding defect x and repair x. -/
theorem claim_C9_no_cascade_witness :
    (delete_defect_info ⟨true, [mkDefectRow "x" "L1"], [mkRepairdRow "x"]⟩ "x").2.repairs
      = [mkRepairdRow "x"]
    ∧ get_repaird_info_by_id "2024-01-01"
        (delete_defect_info ⟨true, [mkDefectRow "x" "L1"], [mkRepairdRow "x"]⟩ "x").2 "x"
      = some (db_model_to_schema_repaird "2024-01-01" (mkRepairdRow "x"))
    ∧ (delete_repaird_info ⟨true, [mkDefectRow "x" "L1"], [mkRepairdRow "x"]⟩ "x").2.defects
      = [mkDefectRow "x" "L1"]
    ∧ get_defect_info_by_id "2024-01-01"
        (delete_repaird_info ⟨true, [mkDefectRow "x" "L1"], [mkRepairdRow "x"]⟩ "x").2 "x"
      = some (db_model_to_schema_defect "2024-01-01" (mkDefectRow "x" "L1")) :=
  claim_C9_no_cascade "2024-01-01" ⟨true, [mkDefectRow "x" "L1"], [mkRepairdRow "x"]⟩
    "x" (mkDefectRow "x" "L1") (mkRepairdRow "x") (by decide) (by decide)

end AoiDataManager
